import Mathlib

set_option maxHeartbeats 1000000

/-!
Verification development for the Odoo 17 EE-to-CE migration engine.

This file gives a shallow embedding of the migration core:
the schema/record comparator (src/lib/migration/table-comparator.ts),
the record compatibility analyzer (src/lib/migration/record-analyzer.ts),
the resumable export subsystem (second half of table-comparator.ts),
and the migration step planner / transactional executor (migrator module),
together with theorems about their behaviour.

Databases are modelled extensionally: a table is its ordered column list plus
its rows, a row is one optional value per column (`none` is SQL NULL).
Queries that the TypeScript issues against PostgreSQL become pure lookups on
this model; per-table probe failures (permission errors and the like) are
modelled by two per-database fault sets, distinguishing failures of catalog
probes (information_schema queries) from failures of reads of the table data
itself, because the TypeScript catches errors at different points for the two.
-/

deriving instance DecidableEq for Except

namespace Migration

/-- A stored row: one optional value per column, aligned positionally with the
owning table's `columns` list (`none` models SQL NULL). -/
abbrev Row := List (Option String)

/-- One table of a PostgreSQL database: its name, its column list (in
`ordinal_position` order) and its rows (kept in the table's stable sort-key
order, matching the explicit ORDER BY used by every row query). -/
structure Table where
  name : String
  columns : List String
  rows : List Row
deriving DecidableEq

/-- A database together with a fault model.  `tables` is kept in name order,
matching the `ORDER BY tablename` of the enumeration query.  A table listed in
`metaFaulty` makes catalog probes (information_schema columns / EXISTS
queries) for it throw; one listed in `dataFaulty` makes queries that read the
table's data (`SELECT ... FROM t`) throw. -/
structure Database where
  tables : List Table
  metaFaulty : List String := []
  dataFaulty : List String := []
deriving DecidableEq

/-- Look a table up by name (first match, as a PostgreSQL catalog has at most
one table per name per schema). -/
def findTable (db : Database) (t : String) : Option Table :=
  db.tables.find? (fun tb => tb.name == t)

/-- Column list of a table as reported by information_schema (empty when the
table does not exist). -/
def Database.columnsOf (db : Database) (t : String) : List String :=
  ((findTable db t).map Table.columns).getD []

/-- Embeds `getTableColumns` (information_schema.columns query; both the
comparator and the analyzer issue the same query).  Throws on a catalog
fault. -/
def getTableColumnsE (db : Database) (t : String) : Except String (List String) :=
  if db.metaFaulty.contains t then .error ("columns query failed for " ++ t)
  else .ok (db.columnsOf t)

/-- Embeds `tableExists` (information_schema.tables EXISTS query).  Throws on
a catalog fault. -/
def tableExistsE (db : Database) (t : String) : Except String Bool :=
  if db.metaFaulty.contains t then .error ("exists query failed for " ++ t)
  else .ok (findTable db t).isSome

/-- Embeds the comparator's `getRecordCount`: `SELECT COUNT(*) FROM "t"` with
its own try/catch that turns any error (missing relation, data fault) into
a count of 0. -/
def getRecordCount (db : Database) (t : String) : Nat :=
  if db.dataFaulty.contains t then 0
  else
    match findTable db t with
    | some tb => tb.rows.length
    | none => 0

/-- The value a row holds in a named column (`none` when NULL or when the
column does not exist). -/
def Table.valueOf (tb : Table) (r : Row) (c : String) : Option String :=
  match tb.columns.findIdx? (fun x => x == c) with
  | some j => r.getD j none
  | none => none

/-- Does at least one row of the table hold a non-null value in column `c`?
(The aggregate `COUNT("c") > 0` computed by one full-table scan.) -/
def Table.columnHasData (tb : Table) (c : String) : Bool :=
  tb.rows.any (fun r => (tb.valueOf r c).isSome)

/-- Embeds `getNonNullColumns` (identical in table-comparator.ts and
record-analyzer.ts): first the information_schema column query (its failure
propagates), then, for a non-empty column list, one aggregate scan of the
table whose failure is caught and falls back to returning every column. -/
def getNonNullColumnsE (db : Database) (t : String) : Except String (List String) := do
  let cols ← getTableColumnsE db t
  if cols.length = 0 then
    return []
  else if db.dataFaulty.contains t then
    -- the catch branch: "Return all columns as fallback"
    return cols
  else
    match findTable db t with
    | none => return cols
    | some tb => return tb.columns.filter (fun c => tb.columnHasData c)

/-! ## Schema and record comparator (table-comparator.ts, first half) -/

/-- The four classification categories of `TableComparisonDetail`. -/
inductive TableCategory where
  | missing_in_target
  | identical_records
  | compatible_diff
  | incompatible_diff
deriving DecidableEq

/-- Embeds the `TableComparisonDetail` interface. -/
structure TableComparisonDetail where
  tableName : String
  category : TableCategory
  sourceRecordCount : Nat
  targetRecordCount : Option Nat := none
  missingColumns : Option (List String) := none
  nullOnlyColumns : Option (List String) := none
deriving DecidableEq

/-- Embeds the `TableComparisonResult` interface.  Note that the interface
carries no error field of any kind: per-table probe errors are only written
to the console log. -/
structure TableComparisonResult where
  tablesWithData : Nat
  tablesMissingInTarget : Nat
  tablesWithIdenticalRecords : Nat
  tablesWithCompatibleDiff : Nat
  tablesWithIncompatibleDiff : Nat
  tableDetails : List TableComparisonDetail
deriving DecidableEq

/-- Return value of `checkSchemaCompatibility`. -/
structure SchemaCompatibility where
  compatible : Bool
  missingColumns : List String
  nullOnlyColumns : List String
deriving DecidableEq

/-- Embeds `checkSchemaCompatibility`: required columns are the non-null
source columns; `missingColumns` are those absent from the target's column
set; `compatible` iff that list is empty. -/
def checkSchemaCompatibility (src tgt : Database) (t : String) :
    Except String SchemaCompatibility := do
  let sourceNonNullColumns ← getNonNullColumnsE src t
  let sourceAllColumns ← getTableColumnsE src t
  let nullOnlyColumns := sourceAllColumns.filter
    (fun c => !(sourceNonNullColumns.contains c))
  let targetColumns ← getTableColumnsE tgt t
  let missingColumns := sourceNonNullColumns.filter
    (fun c => !(targetColumns.contains c))
  return ⟨missingColumns.length == 0, missingColumns, nullOnlyColumns⟩

/-- One iteration of the comparator's per-table try block:
`.ok none` means the table was skipped (zero source rows), `.ok (some d)`
yields its classification, `.error e` is a thrown probe error (which the
caller catches).  Any throw happens after the source count succeeded with a
positive value, because `getRecordCount` swallows its own errors. -/
def classifyTable (src tgt : Database) (t : String) :
    Except String (Option TableComparisonDetail) := do
  let sourceCount := getRecordCount src t
  if sourceCount = 0 then
    return none
  let tExists ← tableExistsE tgt t
  if tExists = false then
    return some { tableName := t, category := .missing_in_target,
                  sourceRecordCount := sourceCount }
  let targetCount := getRecordCount tgt t
  if sourceCount = targetCount then
    return some { tableName := t, category := .identical_records,
                  sourceRecordCount := sourceCount,
                  targetRecordCount := some targetCount }
  let compat ← checkSchemaCompatibility src tgt t
  if compat.compatible then
    return some { tableName := t, category := .compatible_diff,
                  sourceRecordCount := sourceCount,
                  targetRecordCount := some targetCount,
                  missingColumns := some [],
                  nullOnlyColumns := some compat.nullOnlyColumns }
  else
    return some { tableName := t, category := .incompatible_diff,
                  sourceRecordCount := sourceCount,
                  targetRecordCount := some targetCount,
                  missingColumns := some compat.missingColumns,
                  nullOnlyColumns := some compat.nullOnlyColumns }

/-- The zero-initialised accumulator of `compareTablesBetweenDatabases`. -/
def emptyComparisonResult : TableComparisonResult :=
  ⟨0, 0, 0, 0, 0, []⟩

/-- Record one classified table: bump `tablesWithData`, bump the matching
category counter and prepend the detail (the loop pushes in table order, so
building by prepending while recursing over the remaining tables preserves
the original order). -/
def addDetail (d : TableComparisonDetail) (r : TableComparisonResult) :
    TableComparisonResult where
  tablesWithData := r.tablesWithData + 1
  tablesMissingInTarget :=
    (if d.category = .missing_in_target then 1 else 0) + r.tablesMissingInTarget
  tablesWithIdenticalRecords :=
    (if d.category = .identical_records then 1 else 0) + r.tablesWithIdenticalRecords
  tablesWithCompatibleDiff :=
    (if d.category = .compatible_diff then 1 else 0) + r.tablesWithCompatibleDiff
  tablesWithIncompatibleDiff :=
    (if d.category = .incompatible_diff then 1 else 0) + r.tablesWithIncompatibleDiff
  tableDetails := d :: r.tableDetails

/-- Record a table whose probe threw: `tablesWithData` was already
incremented before the throw, nothing else changes. -/
def addErrored (r : TableComparisonResult) : TableComparisonResult :=
  { r with tablesWithData := r.tablesWithData + 1 }

/-- The comparator loop over a list of source tables, also producing the
console error log.  A thrown per-table error is caught: the error is logged
and the loop continues with the next table. -/
def compareAux (src tgt : Database) : List Table → TableComparisonResult × List String
  | [] => (emptyComparisonResult, [])
  | tb :: rest =>
    let (r, logs) := compareAux src tgt rest
    match classifyTable src tgt tb.name with
    | .ok none => (r, logs)
    | .ok (some d) => (addDetail d r, logs)
    | .error e => (addErrored r, ("Error processing table " ++ tb.name ++ ": " ++ e) :: logs)

/-- Embeds `compareTablesBetweenDatabases`: enumerate the source's tables (in
name order) and classify each; returns the comparison result and the console
error log. -/
def compareTablesBetweenDatabases (src tgt : Database) :
    TableComparisonResult × List String :=
  compareAux src tgt src.tables

/-! ## Record compatibility analyzer (record-analyzer.ts) -/

/-- The two categories handled by the analyzer. -/
inductive DiffKind where
  | compatible_diff
  | incompatible_diff
deriving DecidableEq

/-- Embeds the `RecordCompatibilityResult` interface.  Record counts are
integers (JavaScript subtraction may go negative); the compatibility
percentage, a JavaScript number, is modelled as a rational. -/
structure RecordCompatibilityResult where
  tableName : String
  category : DiffKind
  totalRecords : Int
  ceCompatibleRecords : Int
  eeOnlyRecords : Int
  percentageCompatible : ℚ
  missingColumns : Option (List String) := none
  sampleIncompatibleRecords : Option (List Row) := none
deriving DecidableEq

/-- Embeds `getMissingColumnsInTarget`: all source columns (non-null or not)
absent from the target's column set; both column queries may throw. -/
def getMissingColumnsInTargetE (src tgt : Database) (t : String) :
    Except String (List String) := do
  let sourceColumns ← getTableColumnsE src t
  let targetColumns ← getTableColumnsE tgt t
  return sourceColumns.filter (fun c => !(targetColumns.contains c))

/-- Embeds the analyzer's count query
`SELECT COUNT(*) FROM "t" WHERE c1 IS NOT NULL OR ... OR ck IS NOT NULL`
(no catch of its own). -/
def countRowsWithAnyE (src : Database) (t : String) (cols : List String) :
    Except String Nat :=
  if src.dataFaulty.contains t then .error ("count query failed for " ++ t)
  else
    match findTable src t with
    | none => .error ("relation " ++ t ++ " does not exist")
    | some tb =>
      .ok (tb.rows.filter (fun r => cols.any (fun c => (tb.valueOf r c).isSome))).length

/-- Embeds the analyzer's sample query (same WHERE clause, LIMIT 5). -/
def sampleRowsWithAnyE (src : Database) (t : String) (cols : List String) :
    Except String (List Row) :=
  if src.dataFaulty.contains t then .error ("sample query failed for " ++ t)
  else
    match findTable src t with
    | none => .error ("relation " ++ t ++ " does not exist")
    | some tb =>
      .ok ((tb.rows.filter (fun r => cols.any (fun c => (tb.valueOf r c).isSome))).take 5)

/-- Embeds `analyzeIncompatibleDiffTable`.  The entire body sits in one try
whose catch degrades the table to fully at-risk (0 % compatible). -/
def analyzeIncompatibleDiffTable (src tgt : Database) (tableName : String)
    (sourceRecordCount : Int) : RecordCompatibilityResult :=
  let run : Except String RecordCompatibilityResult := do
    let missingColumns ← getMissingColumnsInTargetE src tgt tableName
    let nonNullColumns ← getNonNullColumnsE src tableName
    let missingWithData := missingColumns.filter (fun c => nonNullColumns.contains c)
    if missingWithData.length = 0 then
      -- all missing columns are null-only, so all records are CE compatible
      return { tableName := tableName, category := .incompatible_diff,
               totalRecords := sourceRecordCount,
               ceCompatibleRecords := sourceRecordCount,
               eeOnlyRecords := 0,
               percentageCompatible := 100,
               missingColumns := some missingColumns }
    else
      let eeOnly ← countRowsWithAnyE src tableName missingWithData
      let eeOnlyRecords : Int := eeOnly
      let ceCompatibleRecords : Int := sourceRecordCount - eeOnlyRecords
      let sample ← sampleRowsWithAnyE src tableName missingWithData
      return { tableName := tableName, category := .incompatible_diff,
               totalRecords := sourceRecordCount,
               ceCompatibleRecords := ceCompatibleRecords,
               eeOnlyRecords := eeOnlyRecords,
               percentageCompatible := (ceCompatibleRecords : ℚ) / (sourceRecordCount : ℚ) * 100,
               missingColumns := some missingColumns,
               sampleIncompatibleRecords := some sample }
  match run with
  | .ok r => r
  | .error _ =>
    { tableName := tableName, category := .incompatible_diff,
      totalRecords := sourceRecordCount,
      ceCompatibleRecords := 0,
      eeOnlyRecords := sourceRecordCount,
      percentageCompatible := 0,
      missingColumns := some [] }

/-- Is column `c` of source table `t` entirely null (carries no data)?
True as well when the table does not exist. -/
def columnAllNull (db : Database) (t c : String) : Bool :=
  match findTable db t with
  | none => true
  | some tb => !(tb.columnHasData c)

/-- The missing-column list of `getMissingColumnsInTarget` on fault-free
probes (pure form, used to state hypotheses). -/
def missingColumnsPure (src tgt : Database) (t : String) : List String :=
  (src.columnsOf t).filter (fun c => !((tgt.columnsOf t).contains c))

/-! ## Migration step planner and transactional executor (migrator module) -/

/-- A single quote character, used when assembling SQL literals. -/
def sq : String := String.singleton (Char.ofNat 39)

/-- Renders a SQL LIKE pattern literal for a module name. -/
def quoteLike (m : String) : String := sq ++ "%" ++ m ++ "%" ++ sq

/-- Renders a SQL string literal. -/
def quoteLit (m : String) : String := sq ++ m ++ sq

/-- One detected installed EE module (element of
`AnalysisResult.ee_modules_found`). -/
structure EEModule where
  name : String
  state : String
  latest_version : String
deriving DecidableEq

/-- One detected EE table (element of `AnalysisResult.ee_tables_found`).
`size_mb` is a display string in the source and is never read by the planner
or executor. -/
structure EETable where
  table_name : String
  row_count : Int
  size_mb : String
deriving DecidableEq

/-- One foreign-key dependency of the staging schema (element of
`AnalysisResult.foreign_key_dependencies`):  a constraint on `table_name`
whose referenced table is `foreign_table_name`. -/
structure FKDep where
  table_name : String
  column_name : String
  foreign_table_name : String
  constraint_name : String
deriving DecidableEq

/-- Embeds the `AnalysisResult` interface, restricted to the fields the
planner and executor read (`record_counts`, `estimated_export_size_mb`,
`risk_level` and `warnings` are never consulted by them). -/
structure AnalysisResult where
  ee_modules_found : List EEModule
  ee_tables_found : List EETable
  foreign_key_dependencies : List FKDep
deriving DecidableEq

/-- Embeds the `MigrationStep` interface; `rows_affected` and
`execution_time_ms` are optional and unset (`none`) until a step was actually
executed. -/
structure MigrationStep where
  step_number : Nat
  step_name : String
  sql_executed : String
  rows_affected : Option Nat := none
  execution_time_ms : Option Nat := none
deriving DecidableEq

/-- `steps.push({step_number: stepNumber++, ...})`: append a step carrying
the current counter and bump the counter. -/
def addStep (st : List MigrationStep × Nat) (name sql : String) :
    List MigrationStep × Nat :=
  (st.1 ++ [{ step_number := st.2, step_name := name, sql_executed := sql }], st.2 + 1)

/-- A conditional `steps.push` (the `if (eeModuleList.length > 0)` guards). -/
def addStepIf (cond : Bool) (st : List MigrationStep × Nat) (name sql : String) :
    List MigrationStep × Nat :=
  if cond then addStep st name sql else st

/-- The detected EE module names (`analysisResult.ee_modules_found.map(m => m.name)`). -/
def eeModuleNames (a : AnalysisResult) : List String :=
  a.ee_modules_found.map EEModule.name

/-- The detected EE table names (`analysisResult.ee_tables_found.map(t => t.table_name)`). -/
def eeTableNames (a : AnalysisResult) : List String :=
  a.ee_tables_found.map EETable.table_name

/-- `eeModuleList.map(m => String.raw|'%m%'|).join(", ")`. -/
def likeArray (ms : List String) : String :=
  String.intercalate ", " (ms.map quoteLike)

/-- `list.map(x => quoted x).join(", ")`. -/
def litArray (ms : List String) : String :=
  String.intercalate ", " (ms.map quoteLit)

/-- Steps 1-7 of `generateMigrationSteps`: cron jobs, automated actions,
module uninstall, module dependencies, views, menu items, actions. -/
def planFixedPhases (a : AnalysisResult) : List MigrationStep × Nat :=
  let eeModuleList := eeModuleNames a
  let eeTableList := eeTableNames a
  let hasModules := decide (eeModuleList.length > 0)
  let hasTables := decide (eeTableList.length > 0)
  let st : List MigrationStep × Nat := ([], 1)
  let st := addStepIf hasModules st "Disable Enterprise Edition cron jobs"
    ("UPDATE ir_cron SET active = false \nWHERE model IN (\n  SELECT model FROM ir_model \n  WHERE modules LIKE ANY(ARRAY["
      ++ likeArray eeModuleList ++ "])\n);")
  let st := addStepIf hasModules st "Disable Enterprise Edition automated actions"
    ("UPDATE base_automation SET active = false \nWHERE model_id IN (\n  SELECT id FROM ir_model \n  WHERE modules LIKE ANY(ARRAY["
      ++ likeArray eeModuleList ++ "])\n);")
  let st := addStepIf hasModules st "Mark Enterprise modules as uninstalled"
    ("UPDATE ir_module_module \nSET state = " ++ quoteLit "uninstalled"
      ++ ", latest_version = NULL \nWHERE name IN (" ++ litArray eeModuleList ++ ");")
  let st := addStepIf hasModules st "Remove Enterprise module dependencies"
    ("DELETE FROM ir_module_module_dependency \nWHERE module_id IN (\n  SELECT id FROM ir_module_module WHERE name IN ("
      ++ litArray eeModuleList ++ ")\n);")
  let st := addStep st "Remove Enterprise Edition views"
    ("DELETE FROM ir_ui_view \nWHERE key LIKE " ++ quoteLike "enterprise"
      ++ " \nOR arch_db LIKE " ++ quoteLike "web_enterprise"
      ++ "\nOR arch_db LIKE " ++ quoteLike "web_studio" ++ ";")
  let st := addStepIf hasTables st "Remove Enterprise Edition menu items"
    ("DELETE FROM ir_ui_menu \nWHERE action LIKE " ++ sq ++ "ir.actions.act_window,%" ++ sq ++ ";")
  addStep st "Remove Enterprise Edition actions"
    ("DELETE FROM ir_actions_act_window \nWHERE res_model LIKE " ++ quoteLike "enterprise" ++ ";")

/-- Body of the step-8 loop: `if (eeTableList.includes(fk.foreign_table_name))`
then enqueue a constraint drop. -/
def fkStepFun (a : AnalysisResult) (st : List MigrationStep × Nat) (fk : FKDep) :
    List MigrationStep × Nat :=
  if (eeTableNames a).contains fk.foreign_table_name then
    addStep st ("Drop FK constraint " ++ fk.constraint_name)
      ("ALTER TABLE " ++ fk.table_name ++ " DROP CONSTRAINT IF EXISTS "
        ++ fk.constraint_name ++ " CASCADE;")
  else st

/-- Body of the step-9 loop: enqueue a cascading drop for one EE table. -/
def tableStepFun (st : List MigrationStep × Nat) (t : String) :
    List MigrationStep × Nat :=
  addStep st ("Drop table " ++ t) ("DROP TABLE IF EXISTS " ++ t ++ " CASCADE;")

/-- Step 8 of `generateMigrationSteps`: for every foreign-key dependency
whose referenced table is a detected EE table, enqueue a constraint drop. -/
def planFKPhase (a : AnalysisResult) : List MigrationStep × Nat :=
  a.foreign_key_dependencies.foldl (fkStepFun a) (planFixedPhases a)

/-- Step 9 of `generateMigrationSteps`: enqueue a cascading drop for every
detected EE table. -/
def planTablePhase (a : AnalysisResult) : List MigrationStep × Nat :=
  (eeTableNames a).foldl tableStepFun (planFKPhase a)

/-- Steps 10-12 appended to the table phase: metadata cleanup, model removal
and the final VACUUM, still threading the step counter. -/
def planAll (a : AnalysisResult) : List MigrationStep × Nat :=
  let eeModuleList := eeModuleNames a
  let eeTableList := eeTableNames a
  let hasModules := decide (eeModuleList.length > 0)
  let st := planTablePhase a
  let st := addStep st "Clean ir_model_data for removed tables"
    ("DELETE FROM ir_model_data \nWHERE model IN (" ++ litArray eeTableList ++ ");")
  let st := addStepIf hasModules st "Remove Enterprise Edition models"
    ("DELETE FROM ir_model \nWHERE modules LIKE ANY(ARRAY[" ++ likeArray eeModuleList ++ "]);")
  addStep st "Vacuum and analyze database" "VACUUM ANALYZE;"

/-- Embeds `generateMigrationSteps`: the fixed phases, then the constraint
drops, then the table drops, then metadata cleanup, model removal and the
final VACUUM. -/
def generateMigrationSteps (a : AnalysisResult) : List MigrationStep :=
  (planAll a).1

/-- The executor's environment over an abstract staging-database state `DB`:
`runSql` is `client.query` for one statement inside the open transaction
(new transaction-local state plus the reported row count, or a thrown
error), and `stepTime` is the wall-clock duration measured for a step. -/
structure ExecEnv (DB : Type) where
  runSql : String → DB → Except String (DB × Nat)
  stepTime : MigrationStep → Nat

/-- One row of `migration_steps_log` as written by `logMigrationStep`
(`rows_affected || 0` and `execution_time_ms || 0`). -/
structure LogEntry where
  job_id : Nat
  step_number : Nat
  step_name : String
  status : String
  rows_affected : Nat
  execution_time_ms : Nat
  error_message : Option String
deriving DecidableEq

/-- Embeds `logMigrationStep` (an insert into the config database). -/
def logEntry (jobId : Nat) (s : MigrationStep) (status : String)
    (err : Option String) : LogEntry where
  job_id := jobId
  step_number := s.step_number
  step_name := s.step_name
  status := status
  rows_affected := s.rows_affected.getD 0
  execution_time_ms := s.execution_time_ms.getD 0
  error_message := err

/-- Outcome of the executor's in-transaction step loop: either every step
succeeded, or the step numbered `stepNum` threw `err`.  `done` are the
successfully executed steps (with rows/duration filled in, in order), `sent`
the SQL statements sent to the staging connection by the loop, `log` the
step-log rows written. -/
inductive RunOutcome (DB : Type) where
  | ok (txdb : DB) (done : List MigrationStep) (sent : List String) (log : List LogEntry)
  | failed (stepNum : Nat) (err : String) (done : List MigrationStep)
      (sent : List String) (log : List LogEntry)
deriving DecidableEq

/-- The executor's `for (const step of steps)` loop inside the transaction:
log `running`, execute, record rows/duration and log `completed`; a throw
logs `failed` and aborts the loop (the failing step is not pushed to
`result.steps`). -/
def runSteps {DB : Type} (jobId : Nat) (env : ExecEnv DB) (db : DB) :
    List MigrationStep → RunOutcome DB
  | [] => .ok db [] [] []
  | s :: rest =>
    let runLog := logEntry jobId s "running" none
    match env.runSql s.sql_executed db with
    | .error e =>
      .failed s.step_number e [] [s.sql_executed]
        [runLog, logEntry jobId s "failed" (some e)]
    | .ok (db2, rows) =>
      let s2 : MigrationStep :=
        { s with rows_affected := some rows, execution_time_ms := some (env.stepTime s) }
      match runSteps jobId env db2 rest with
      | .ok dbf done sent log =>
        .ok dbf (s2 :: done) (s.sql_executed :: sent)
          (runLog :: logEntry jobId s2 "completed" none :: log)
      | .failed k e done sent log =>
        .failed k e (s2 :: done) (s.sql_executed :: sent)
          (runLog :: logEntry jobId s2 "completed" none :: log)

/-- Embeds the `MigrationResult` interface. -/
structure MigrationResult where
  success : Bool
  steps : List MigrationStep
  errors : List String
  dry_run : Bool
deriving DecidableEq

/-- Everything observable about one `executeMigration` call: the returned
result, the committed staging-database state, the statements sent to the
staging connection (including transaction control), and the step log. -/
structure ExecutionOutcome (DB : Type) where
  result : MigrationResult
  finalDB : DB
  sent : List String
  log : List LogEntry
deriving DecidableEq

/-- Embeds `executeMigration`.  In dry-run mode the planned steps are
returned as-is and nothing is sent to the staging connection.  In live mode
a `BEGIN` opens one transaction, the steps run in order, and either a
`COMMIT` publishes the transaction-local state or the first failure rolls
everything back (the staging state reverts to its pre-transaction value);
the step catch records `Step k failed: e` and rethrows, and the outer catch
then records the bare error message as well. -/
def executeMigration {DB : Type} (jobId : Nat) (env : ExecEnv DB) (db : DB)
    (a : AnalysisResult) (dryRun : Bool) : ExecutionOutcome DB :=
  let steps := generateMigrationSteps a
  if dryRun then
    { result := { success := true, steps := steps, errors := [], dry_run := true },
      finalDB := db, sent := [], log := [] }
  else
    match runSteps jobId env db steps with
    | .ok txdb done sent log =>
      { result := { success := true, steps := done, errors := [], dry_run := false },
        finalDB := txdb, sent := "BEGIN" :: sent ++ ["COMMIT"], log := log }
    | .failed k e done sent log =>
      { result := { success := false, steps := done,
                    errors := ["Step " ++ toString k ++ " failed: " ++ e, e],
                    dry_run := false },
        finalDB := db, sent := "BEGIN" :: sent ++ ["ROLLBACK"], log := log }

/-! ## Resumable export subsystem (table-comparator.ts, second half) -/

/-- Export checkpoint lifecycle states. -/
inductive CheckpointStatus where
  | pending
  | in_progress
  | completed
  | failed
deriving DecidableEq

/-- One row of `export_checkpoints` (the `ExportCheckpoint` interface);
timestamps are modelled as opaque strings. -/
structure ExportCheckpoint where
  id : Nat
  job_id : Nat
  module_name : String
  status : CheckpointStatus
  records_exported : Nat
  total_records : Nat
  file_path : Option String
  file_size_bytes : Nat
  started_at : Option String
  completed_at : Option String
  error_message : Option String
deriving DecidableEq

/-- A `Partial<ExportCheckpoint>` argument of `updateExportCheckpoint`:
`none` means the key is absent from the updates object.  The nullable
columns take a nested option (`some none` writes SQL NULL). -/
structure CheckpointUpdates where
  id : Option Nat := none
  job_id : Option Nat := none
  module_name : Option String := none
  status : Option CheckpointStatus := none
  records_exported : Option Nat := none
  total_records : Option Nat := none
  file_path : Option (Option String) := none
  file_size_bytes : Option Nat := none
  started_at : Option (Option String) := none
  completed_at : Option (Option String) := none
  error_message : Option (Option String) := none
deriving DecidableEq

/-- Does the updates object carry at least one field that survives the
`key !== 'id' && key !== 'job_id' && key !== 'module_name'` filter?  Only
then is an UPDATE statement issued at all. -/
def hasWritableField (u : CheckpointUpdates) : Bool :=
  u.status.isSome || u.records_exported.isSome || u.total_records.isSome ||
  u.file_path.isSome || u.file_size_bytes.isSome || u.started_at.isSome ||
  u.completed_at.isSome || u.error_message.isSome

/-- The effect of the generated `UPDATE export_checkpoints SET ...` on one
row: every supplied writable field is overwritten, the identity fields are
never part of the SET list. -/
def applyUpdates (u : CheckpointUpdates) (c : ExportCheckpoint) : ExportCheckpoint where
  id := c.id
  job_id := c.job_id
  module_name := c.module_name
  status := u.status.getD c.status
  records_exported := u.records_exported.getD c.records_exported
  total_records := u.total_records.getD c.total_records
  file_path := u.file_path.getD c.file_path
  file_size_bytes := u.file_size_bytes.getD c.file_size_bytes
  started_at := u.started_at.getD c.started_at
  completed_at := u.completed_at.getD c.completed_at
  error_message := u.error_message.getD c.error_message

/-- Embeds `updateExportCheckpoint` acting on the checkpoint table (a list of
rows): the boolean reports whether an UPDATE statement was sent (`false`
when no writable field was supplied, in which case nothing happens). -/
def updateExportCheckpoint (cps : List ExportCheckpoint) (checkpointId : Nat)
    (u : CheckpointUpdates) : List ExportCheckpoint × Bool :=
  if hasWritableField u then
    (cps.map (fun c => if c.id == checkpointId then applyUpdates u c else c), true)
  else
    (cps, false)

/-- One `(tableName, orderBy?)` entry of a module's export configuration. -/
structure TableExportConfig where
  tableName : String
  orderBy : Option String := none
deriving DecidableEq

/-- The `ExportModuleConfig` interface. -/
structure ExportModuleConfig where
  moduleName : String
  tables : List TableExportConfig
deriving DecidableEq

/-- The static `EXPORT_MODULES` catalog of EE modules to export. -/
def EXPORT_MODULES : List ExportModuleConfig := [
  { moduleName := "helpdesk", tables := [
      { tableName := "helpdesk_team", orderBy := some "id" },
      { tableName := "helpdesk_stage", orderBy := some "sequence, id" },
      { tableName := "helpdesk_sla", orderBy := some "id" },
      { tableName := "helpdesk_tag", orderBy := some "id" },
      { tableName := "helpdesk_ticket", orderBy := some "id" }] },
  { moduleName := "subscriptions", tables := [
      { tableName := "sale_subscription_template", orderBy := some "id" },
      { tableName := "sale_subscription_stage", orderBy := some "sequence, id" },
      { tableName := "sale_subscription", orderBy := some "id" },
      { tableName := "sale_subscription_line", orderBy := some "id" },
      { tableName := "sale_subscription_alert", orderBy := some "id" }] },
  { moduleName := "documents", tables := [
      { tableName := "documents_folder", orderBy := some "id" },
      { tableName := "documents_facet", orderBy := some "id" },
      { tableName := "documents_tag", orderBy := some "id" },
      { tableName := "documents_document", orderBy := some "id" },
      { tableName := "documents_workflow_rule", orderBy := some "id" },
      { tableName := "documents_share", orderBy := some "id" }] },
  { moduleName := "planning", tables := [
      { tableName := "planning_role", orderBy := some "id" },
      { tableName := "planning_template", orderBy := some "id" },
      { tableName := "planning_slot", orderBy := some "id" },
      { tableName := "planning_recurrency", orderBy := some "id" }] },
  { moduleName := "sign", tables := [
      { tableName := "sign_template", orderBy := some "id" },
      { tableName := "sign_item", orderBy := some "id" },
      { tableName := "sign_request", orderBy := some "id" },
      { tableName := "sign_request_item", orderBy := some "id" },
      { tableName := "sign_request_item_value", orderBy := some "id" }] },
  { moduleName := "approvals", tables := [
      { tableName := "approval_category", orderBy := some "id" },
      { tableName := "approval_request", orderBy := some "id" },
      { tableName := "approval_approver", orderBy := some "id" },
      { tableName := "approval_product_line", orderBy := some "id" }] },
  { moduleName := "iot", tables := [
      { tableName := "iot_box", orderBy := some "id" },
      { tableName := "iot_device", orderBy := some "id" }] },
  { moduleName := "voip", tables := [
      { tableName := "voip_configurator", orderBy := some "id" },
      { tableName := "voip_phonecall", orderBy := some "id" }] },
  { moduleName := "payroll", tables := [
      { tableName := "hr_payroll_structure_type", orderBy := some "id" },
      { tableName := "hr_payroll_structure", orderBy := some "id" },
      { tableName := "hr_payslip_run", orderBy := some "id" },
      { tableName := "hr_payslip", orderBy := some "id" },
      { tableName := "hr_payslip_line", orderBy := some "id" }] },
  { moduleName := "fleet", tables := [
      { tableName := "fleet_vehicle_model", orderBy := some "id" },
      { tableName := "fleet_vehicle", orderBy := some "id" },
      { tableName := "fleet_vehicle_log_contract", orderBy := some "id" },
      { tableName := "fleet_vehicle_log_services", orderBy := some "id" }] }]

/-- One read issued against the source database during an export:
the existence probe, the `COUNT(*)`, or one `LIMIT/OFFSET` batch select. -/
inductive SourceRead where
  | existsProbe (t : String)
  | countRows (t : String)
  | batch (t : String) (limit offset : Nat)
deriving DecidableEq

/-- One artifact written to the export directory. -/
structure FileWrite where
  path : String
  size : Nat
  compressed : Bool
deriving DecidableEq

/-- The serialized module document (`{module, exported_at, total_records,
tables}`), before JSON rendering. -/
structure ExportDoc where
  module : String
  exported_at : String
  total_records : Nat
  tables : List (String × List Row)
deriving DecidableEq

/-- Observable state threaded through the export subsystem: the
`export_checkpoints` table of the config database (kept in id order, matching
`ORDER BY id`), the artifact files written, the reads issued against the
source database, and the next SERIAL id. -/
structure ExportState where
  checkpoints : List ExportCheckpoint
  files : List FileWrite
  reads : List SourceRead
  nextCheckpointId : Nat
deriving DecidableEq

/-- Environment of an export run: the wall-clock timestamp
(`new Date().toISOString()`), the size of the JSON rendering of a document,
the size after gzip, and the `EXPORT_DIR` environment variable. -/
structure ExportEnv where
  now : String
  jsonSize : ExportDoc → Nat
  gzipSize : ExportDoc → Nat
  envExportDir : Option String

/-- `BATCH_SIZE = 1000`. -/
def BATCH_SIZE : Nat := 1000

/-- `COMPRESSION_THRESHOLD_MB = 1`. -/
def COMPRESSION_THRESHOLD_MB : Nat := 1

/-- Apply one checkpoint update to the threaded export state. -/
def applyCheckpointUpdate (st : ExportState) (cid : Nat) (u : CheckpointUpdates) :
    ExportState :=
  { st with checkpoints := (updateExportCheckpoint st.checkpoints cid u).1 }

/-- One insert of `initializeExportCheckpoints`:
`INSERT ... ON CONFLICT (job_id, module_name) DO NOTHING`. -/
def initCheckpointStep (jobId : Nat) (st : ExportState) (m : ExportModuleConfig) :
    ExportState :=
  if st.checkpoints.any
      (fun c => c.job_id == jobId && c.module_name == m.moduleName) then st
  else
    { st with
      checkpoints := st.checkpoints ++
        [{ id := st.nextCheckpointId, job_id := jobId,
           module_name := m.moduleName, status := .pending,
           records_exported := 0, total_records := 0, file_path := none,
           file_size_bytes := 0, started_at := none, completed_at := none,
           error_message := none }],
      nextCheckpointId := st.nextCheckpointId + 1 }

/-- Embeds `initializeExportCheckpoints`: insert one `pending` row per
catalog module, `ON CONFLICT (job_id, module_name) DO NOTHING`. -/
def initializeExportCheckpoints (jobId : Nat) (st : ExportState) : ExportState :=
  EXPORT_MODULES.foldl (initCheckpointStep jobId) st

/-- Embeds `getExportCheckpoints` (`WHERE job_id = $1 ORDER BY id`; the
stored list is kept in id order). -/
def getExportCheckpoints (jobId : Nat) (st : ExportState) : List ExportCheckpoint :=
  st.checkpoints.filter (fun c => c.job_id == jobId)

/-- `timestamp.replace(/[:.]/g, "-")` used when generating the file name. -/
def tsSanitize (s : String) : String :=
  s.map (fun ch =>
    if ch == Char.ofNat 58 || ch == Char.ofNat 46 then Char.ofNat 45 else ch)

/-- The per-table body of `exportModule`'s `for (const tableConfig of ...)`
loop: probe existence (absent tables export an empty array and are not a
failure), count, then page through the rows in `BATCH_SIZE` batches from
offset 0, persisting progress counters to the checkpoint after every batch.
The accumulator carries the threaded state, the running total record count
and the per-table row arrays in insertion order. -/
def exportOneTable (src : Database) (cpId : Nat)
    (acc : ExportState × Nat × List (String × List Row)) (tc : TableExportConfig) :
    ExportState × Nat × List (String × List Row) :=
  let (st, runningTotal, entries) := acc
  let st := { st with reads := st.reads ++ [SourceRead.existsProbe tc.tableName] }
  match findTable src tc.tableName with
  | none => (st, runningTotal, entries ++ [(tc.tableName, [])])
  | some tb =>
    let st := { st with reads := st.reads ++ [SourceRead.countRows tc.tableName] }
    let count := tb.rows.length
    let total := runningTotal + count
    let nBatches := (count + BATCH_SIZE - 1) / BATCH_SIZE
    let st := (List.range nBatches).foldl
      (fun st i =>
        applyCheckpointUpdate
          { st with reads := st.reads ++
            [SourceRead.batch tc.tableName BATCH_SIZE (BATCH_SIZE * i)] }
          cpId
          { records_exported := some (BATCH_SIZE * (i + 1)),
            total_records := some total })
      st
    let records := (List.range nBatches).foldl
      (fun rs i => rs ++ (tb.rows.drop (BATCH_SIZE * i)).take BATCH_SIZE) []
    (st, total, entries ++ [(tc.tableName, records)])

/-- Embeds `exportModule`: fetch the module's checkpoint (throw when absent),
return immediately when it is already `completed`, otherwise mark it
`in_progress`, export every configured table from scratch, serialize the
module document, write it (gzip-compressed iff the JSON rendering exceeds
the 1 MB threshold) and mark the checkpoint `completed`.  The source reads
performed are recorded in the state.  (The catch that marks the checkpoint
`failed` and rethrows is unreachable here because this model's export reads
cannot throw.) -/
def exportModule (jobId : Nat) (env : ExportEnv) (src : Database)
    (mc : ExportModuleConfig) (exportDir : String) (st : ExportState) :
    Except String ExportState :=
  match st.checkpoints.find?
      (fun c => c.job_id == jobId && c.module_name == mc.moduleName) with
  | none => .error ("No checkpoint found for module " ++ mc.moduleName)
  | some cp =>
    if cp.status = .completed then
      .ok st
    else
      let st := applyCheckpointUpdate st cp.id
        { status := some .in_progress, started_at := some (some env.now) }
      let (st, totalRecords, entries) :=
        mc.tables.foldl (exportOneTable src cp.id) (st, 0, [])
      let doc : ExportDoc :=
        { module := mc.moduleName, exported_at := env.now,
          total_records := totalRecords, tables := entries }
      let fileName := mc.moduleName ++ "_" ++ tsSanitize env.now ++ ".json"
      let filePath := exportDir ++ "/" ++ fileName
      let jsonSize := env.jsonSize doc
      let shouldCompress := decide (jsonSize > COMPRESSION_THRESHOLD_MB * 1024 * 1024)
      let finalPath := if shouldCompress then filePath ++ ".gz" else filePath
      let finalSize := if shouldCompress then env.gzipSize doc else jsonSize
      let st := { st with files := st.files ++
        [{ path := finalPath, size := finalSize, compressed := shouldCompress }] }
      let st := applyCheckpointUpdate st cp.id
        { status := some .completed, completed_at := some (some env.now),
          file_path := some (some finalPath), file_size_bytes := some finalSize,
          total_records := some totalRecords, records_exported := some totalRecords }
      .ok st

/-- The `for (const checkpoint of checkpoints)` loop of `exportAllModules`:
checkpoints already `completed` in the fetched snapshot are skipped without
touching the source; for the others the module's catalog entry (when it
exists) is exported, and a thrown module error propagates. -/
def exportModulesLoop (jobId : Nat) (env : ExportEnv) (src : Database)
    (exportDir : String) (st : ExportState) :
    List ExportCheckpoint → Except String ExportState
  | [] => .ok st
  | c :: rest =>
    if c.status = .completed then
      exportModulesLoop jobId env src exportDir st rest
    else
      match EXPORT_MODULES.find? (fun m => m.moduleName == c.module_name) with
      | some mc => do
        let st2 ← exportModule jobId env src mc exportDir st
        exportModulesLoop jobId env src exportDir st2 rest
      | none => exportModulesLoop jobId env src exportDir st rest

/-- Embeds `exportAllModules`: resolve the job's export directory,
initialize missing checkpoints, fetch the job's checkpoints, then export
every module that is not yet `completed`. -/
def exportAllModules (jobId : Nat) (env : ExportEnv) (src : Database)
    (exportDir : Option String) (st : ExportState) : Except String ExportState :=
  let baseExportDir := exportDir.getD (env.envExportDir.getD "./exports")
  let jobExportDir := baseExportDir ++ "/job_" ++ toString jobId
  let st := initializeExportCheckpoints jobId st
  let cps := getExportCheckpoints jobId st
  exportModulesLoop jobId env src jobExportDir st cps

/-! ## Derived predicates and concrete instances used in the theorems -/

/-- The failing step number and error of a run outcome, if any. -/
def RunOutcome.failedNum {DB : Type} : RunOutcome DB → Option (Nat × String)
  | .ok .. => none
  | .failed k e .. => some (k, e)

/-- Invariant of the planner's threaded `(steps, stepNumber)` state: the
counter is one past the number of steps, the step stored at index `i`
carries step number `i + 1`, and no planned step has rows/duration set. -/
def PlanStateWF (st : List MigrationStep × Nat) : Prop :=
  st.2 = st.1.length + 1 ∧
  (∀ i s, st.1[i]? = some s → s.step_number = i + 1) ∧
  (∀ s ∈ st.1, s.rows_affected = none ∧ s.execution_time_ms = none)

/-- An all-fixed-name predicate: the step names produced outside the
constraint-drop and table-drop loops. -/
def fixedStepName (n : String) : Prop :=
  n = "Disable Enterprise Edition cron jobs" ∨
  n = "Disable Enterprise Edition automated actions" ∨
  n = "Mark Enterprise modules as uninstalled" ∨
  n = "Remove Enterprise module dependencies" ∨
  n = "Remove Enterprise Edition views" ∨
  n = "Remove Enterprise Edition menu items" ∨
  n = "Remove Enterprise Edition actions" ∨
  n = "Clean ir_model_data for removed tables" ∨
  n = "Remove Enterprise Edition models" ∨
  n = "Vacuum and analyze database"

/-- The detail the comparator produces for table `t` of `srcC1`/`tgtC1`. -/
def dC1 : TableComparisonDetail :=
  { tableName := "t", category := .identical_records, sourceRecordCount := 1,
    targetRecordCount := some 1 }

/-- The detail the comparator produces for table `u` of `srcC2`/`tgtC2`. -/
def dC2u : TableComparisonDetail :=
  { tableName := "u", category := .incompatible_diff, sourceRecordCount := 2,
    targetRecordCount := some 1, missingColumns := some ["promo"],
    nullOnlyColumns := some [] }

/-- An all-names predicate over a planner state: every queued step's name
satisfies `P`. -/
def NamesOK (P : String → Prop) (st : List MigrationStep × Nat) : Prop :=
  ∀ s ∈ st.1, P s.step_name

/-- The reads `exportModule` issues against the source for one configured
table: the existence probe, and for an existing table the count plus one
batched select per `BATCH_SIZE` page starting at offset 0. -/
def tableReads (src : Database) (tc : TableExportConfig) : List SourceRead :=
  match findTable src tc.tableName with
  | none => [SourceRead.existsProbe tc.tableName]
  | some tb =>
    SourceRead.existsProbe tc.tableName :: SourceRead.countRows tc.tableName ::
      (List.range ((tb.rows.length + BATCH_SIZE - 1) / BATCH_SIZE)).map
        (fun i => SourceRead.batch tc.tableName BATCH_SIZE (BATCH_SIZE * i))

/-- All source reads of a full fresh export of one module. -/
def moduleReads (src : Database) (mc : ExportModuleConfig) : List SourceRead :=
  (mc.tables.map (tableReads src)).flatten

/-- Source/target pair on which the comparator declares `identical_records`
although the stored row values differ: table `t` holds one row in each
database, with different values in column `v`. -/
def srcC1 : Database :=
  { tables := [{ name := "t", columns := ["id", "v"], rows := [[some "1", some "a"]] }] }

/-- See `srcC1`. -/
def tgtC1 : Database :=
  { tables := [{ name := "t", columns := ["id", "v"], rows := [[some "1", some "b"]] }] }

/-- Source database with a populated column `promo` missing from the target:
table `t` has equal row counts on both sides, table `u` has differing
counts. -/
def srcC2 : Database :=
  { tables := [
      { name := "t", columns := ["id", "promo"], rows := [[some "1", some "x"]] },
      { name := "u", columns := ["id", "promo"],
        rows := [[some "1", some "x"], [some "2", none]] }] }

/-- See `srcC2`: the target lacks column `promo` in both tables. -/
def tgtC2 : Database :=
  { tables := [
      { name := "t", columns := ["id"], rows := [[some "2"]] },
      { name := "u", columns := ["id"], rows := [[some "1"]] }] }

/-- Table `a` of the probe-error scenario. -/
def tblA : Table := { name := "a", columns := ["id"], rows := [[some "1"]] }

/-- Table `b` of the probe-error scenario. -/
def tblB : Table := { name := "b", columns := ["id"], rows := [[some "1"]] }

/-- Source pair for the probe-error scenario: both tables hold data, and the
target-side catalog probe for table `a` throws. -/
def srcC9 : Database :=
  { tables := [tblA, tblB] }

/-- See `srcC9`. -/
def tgtC9 : Database :=
  { tables := [{ name := "b", columns := ["id"], rows := [[some "1"], [some "2"]] }],
    metaFaulty := ["a"] }

/-- Analyzer witness input: `promo_code` is missing from the target and
entirely null in the source. -/
def srcC5 : Database :=
  { tables := [{ name := "orders", columns := ["id", "promo_code"],
                 rows := [[some "1", none], [some "2", none]] }] }

/-- See `srcC5`. -/
def tgtC5 : Database :=
  { tables := [{ name := "orders", columns := ["id"], rows := [] }] }

/-- A staging environment in which every statement throws. -/
def execEnvFail : ExecEnv Nat :=
  { runSql := fun _ _ => .error "boom", stepTime := fun _ => 0 }

/-- An analysis with no detected EE modules, tables or constraints (the plan
still contains the four unconditional steps). -/
def aEmpty : AnalysisResult :=
  { ee_modules_found := [], ee_tables_found := [], foreign_key_dependencies := [] }

/-- Planner witness analysis: one EE table `a`, referenced by a constraint on
`b`. -/
def aC7 : AnalysisResult :=
  { ee_modules_found := [],
    ee_tables_found := [{ table_name := "a", row_count := 1, size_mb := "0.1" }],
    foreign_key_dependencies :=
      [{ table_name := "b", column_name := "a_id", foreign_table_name := "a",
         constraint_name := "b_a_id_fkey" }] }

/-- Export environment used by witnesses. -/
def exportEnvW : ExportEnv :=
  { now := "2026-01-01T00:00:00.000Z", jsonSize := fun _ => 0,
    gzipSize := fun _ => 0, envExportDir := none }

/-- A `completed` checkpoint row for the `helpdesk` module of job 1. -/
def cpC8 : ExportCheckpoint :=
  { id := 1, job_id := 1, module_name := "helpdesk", status := .completed,
    records_exported := 5, total_records := 5, file_path := some "p",
    file_size_bytes := 10, started_at := some "s", completed_at := some "c",
    error_message := none }

/-- An export state whose `helpdesk` checkpoint for job 1 is `completed`. -/
def stC8 : ExportState :=
  { checkpoints := [cpC8], files := [], reads := [], nextCheckpointId := 2 }

/-- A completed checkpoint row for one module of job 1. -/
def completedCheckpoint (i : Nat) (m : String) : ExportCheckpoint :=
  { id := i, job_id := 1, module_name := m, status := .completed,
    records_exported := 0, total_records := 0, file_path := some "p",
    file_size_bytes := 1, started_at := some "s", completed_at := some "c",
    error_message := none }

/-- An export state in which every catalog module of job 1 is `completed`. -/
def stC8all : ExportState :=
  { checkpoints := (EXPORT_MODULES.map ExportModuleConfig.moduleName).enum.map
      (fun p => completedCheckpoint (p.1 + 1) p.2),
    files := [], reads := [], nextCheckpointId := 11 }

/-- A source database with no tables, used by export witnesses. -/
def srcEmpty : Database := { tables := [] }

/-- A module configuration with no tables, used by export witnesses. -/
def mcEmptyHelpdesk : ExportModuleConfig := { moduleName := "helpdesk", tables := [] }

/-- The checkpoint row used by the frame-condition witness. -/
def cpC10 : ExportCheckpoint :=
  { id := 1, job_id := 1, module_name := "helpdesk", status := .pending,
    records_exported := 0, total_records := 0, file_path := none,
    file_size_bytes := 0, started_at := none, completed_at := none,
    error_message := none }

/-- Checkpoint table used by the frame-condition witness. -/
def cpsC10 : List ExportCheckpoint := [cpC10]

/-- An updates object that tries to overwrite the identity fields as well as
the status. -/
def updC10 : CheckpointUpdates :=
  { id := some 99, job_id := some 99, module_name := some "x",
    status := some .completed }

/-! ## Lemmas and claim theorems -/

theorem applyUpdates_id (u : CheckpointUpdates) (c : ExportCheckpoint) :
    (applyUpdates u c).id = c.id ∧ (applyUpdates u c).job_id = c.job_id ∧
    (applyUpdates u c).module_name = c.module_name :=
  ⟨rfl, rfl, rfl⟩

/-- C10: `updateExportCheckpoint` preserves every row's identity fields
(`id`, `job_id`, `module_name`), even when the updates object supplies them;
rows with a different id are untouched; the matching row receives exactly
the supplied writable fields and keeps every unsupplied field; and an
updates object with no writable field issues no UPDATE at all. -/
theorem updateExportCheckpoint_frame (cps : List ExportCheckpoint) (cid : Nat)
    (u : CheckpointUpdates) :
    (updateExportCheckpoint cps cid u).1.length = cps.length ∧
    (∀ (i : Nat) (c : ExportCheckpoint), cps[i]? = some c →
      ∃ c2, (updateExportCheckpoint cps cid u).1[i]? = some c2 ∧
        c2.id = c.id ∧ c2.job_id = c.job_id ∧ c2.module_name = c.module_name ∧
        (c.id ≠ cid → c2 = c) ∧
        (c.id = cid → hasWritableField u = true → c2 = applyUpdates u c)) ∧
    (∀ c, (u.status = none → (applyUpdates u c).status = c.status) ∧
      (u.records_exported = none →
        (applyUpdates u c).records_exported = c.records_exported) ∧
      (u.total_records = none → (applyUpdates u c).total_records = c.total_records) ∧
      (u.file_path = none → (applyUpdates u c).file_path = c.file_path) ∧
      (u.file_size_bytes = none →
        (applyUpdates u c).file_size_bytes = c.file_size_bytes) ∧
      (u.started_at = none → (applyUpdates u c).started_at = c.started_at) ∧
      (u.completed_at = none → (applyUpdates u c).completed_at = c.completed_at) ∧
      (u.error_message = none → (applyUpdates u c).error_message = c.error_message)) ∧
    (hasWritableField u = false → updateExportCheckpoint cps cid u = (cps, false)) := by
  refine ⟨?_, ?_, ?_, ?_⟩
  · unfold updateExportCheckpoint
    split <;> simp
  · intro i c hc
    cases hw : hasWritableField u with
    | false =>
      refine ⟨c, ?_, rfl, rfl, rfl, fun _ => rfl, fun _ h => ?_⟩
      · simp [updateExportCheckpoint, hw, hc]
      · exact absurd h Bool.false_ne_true
    | true =>
      refine ⟨if c.id == cid then applyUpdates u c else c, ?_, ?_, ?_, ?_, ?_, ?_⟩
      · simp [updateExportCheckpoint, hw, hc]
      · split <;> rfl
      · split <;> rfl
      · split <;> rfl
      · intro hne
        rw [if_neg (by simp [hne])]
      · intro heq _
        rw [if_pos (by simp [heq])]
  · intro c
    refine ⟨?_, ?_, ?_, ?_, ?_, ?_, ?_, ?_⟩ <;>
      (intro h; simp [applyUpdates, h])
  · intro hw
    simp [updateExportCheckpoint, hw]

/-- Witness for `updateExportCheckpoint_frame` at a concrete table and an
updates object that supplies new identity fields: the stored row keeps its
identity. -/
theorem updateExportCheckpoint_frame_witness :
    ∃ c2, (updateExportCheckpoint cpsC10 1 updC10).1[0]? = some c2 ∧
      c2.id = 1 ∧ c2.job_id = 1 ∧ c2.module_name = "helpdesk" := by
  obtain ⟨-, h, -, -⟩ := updateExportCheckpoint_frame cpsC10 1 updC10
  obtain ⟨c2, h0, h1, h2, h3, -, -⟩ := h 0 cpC10 (by rfl)
  exact ⟨c2, h0, h1.trans rfl, h2.trans rfl, h3.trans rfl⟩

/-- C6: on every path of `analyzeIncompatibleDiffTable` — all-null missing
columns, genuine at-risk counting, and the error-degradation catch — the
returned counts satisfy `ceCompatibleRecords + eeOnlyRecords = totalRecords`
exactly. -/
theorem analyzeIncompatibleDiffTable_counts_sum (src tgt : Database)
    (tableName : String) (n : Int) :
    (analyzeIncompatibleDiffTable src tgt tableName n).ceCompatibleRecords +
      (analyzeIncompatibleDiffTable src tgt tableName n).eeOnlyRecords =
      (analyzeIncompatibleDiffTable src tgt tableName n).totalRecords := by
  unfold analyzeIncompatibleDiffTable
  cases h1 : getMissingColumnsInTargetE src tgt tableName with
  | error e => simp [h1, bind, Except.bind]
  | ok ms =>
    cases h2 : getNonNullColumnsE src tableName with
    | error e => simp [h1, h2, bind, Except.bind]
    | ok nn =>
      simp only [h1, h2, bind, Except.bind]
      by_cases hmd : (ms.filter (fun c => nn.contains c)).length = 0
      · rw [if_pos hmd]
        simp [pure, Except.pure]
      · rw [if_neg hmd]
        cases h3 : countRowsWithAnyE src tableName (ms.filter (fun c => nn.contains c)) with
        | error e => simp [h3]
        | ok k =>
          simp only [h3]
          cases h4 : sampleRowsWithAnyE src tableName (ms.filter (fun c => nn.contains c)) with
          | error e => simp [h4]
          | ok sample =>
            simp [h4, pure, Except.pure]

/-- On fault-free probes the non-null-column query returns exactly the
columns that carry data. -/
theorem getNonNullColumnsE_spec (db : Database) (t : String)
    (hmeta : db.metaFaulty.contains t = false)
    (hdata : db.dataFaulty.contains t = false) :
    ∃ nn, getNonNullColumnsE db t = .ok nn ∧
      ∀ c, c ∈ nn → columnAllNull db t c = false := by
  have hmeta2 : t ∉ db.metaFaulty := by simpa using hmeta
  have hok : getTableColumnsE db t = .ok (db.columnsOf t) := by
    simp [getTableColumnsE, hmeta2]
  cases hf : findTable db t with
  | none =>
    have hcols : db.columnsOf t = [] := by simp [Database.columnsOf, hf]
    refine ⟨[], ?_, by simp⟩
    unfold getNonNullColumnsE
    rw [hok, hcols]
    simp [bind, Except.bind, pure, Except.pure]
  | some tb =>
    have hcols : db.columnsOf t = tb.columns := by simp [Database.columnsOf, hf]
    by_cases hlen : tb.columns.length = 0
    · refine ⟨[], ?_, by simp⟩
      unfold getNonNullColumnsE
      rw [hok, hcols]
      simp [bind, Except.bind, hlen, pure, Except.pure]
    · refine ⟨tb.columns.filter (fun c => tb.columnHasData c), ?_, ?_⟩
      · unfold getNonNullColumnsE
        rw [hok]
        simp only [bind, Except.bind]
        rw [hcols, if_neg hlen,
          if_neg (by rw [hdata]; exact Bool.false_ne_true), hf]
        simp [pure, Except.pure]
      · intro c hc
        rw [List.mem_filter] at hc
        simp [columnAllNull, hf, hc.2]

/-- C5: when every column missing from the target is entirely null in the
source (and the probes succeed), the analyzer reports the incompatible table
as 100 % compatible: `ceCompatibleRecords` equals the table's total record
count and `eeOnlyRecords` is zero. -/
theorem analyzeIncompatibleDiffTable_all_null (src tgt : Database) (t : String)
    (n : Int)
    (hms : src.metaFaulty.contains t = false)
    (hmt : tgt.metaFaulty.contains t = false)
    (hds : src.dataFaulty.contains t = false)
    (hnull : ∀ c ∈ missingColumnsPure src tgt t, columnAllNull src t c = true) :
    (analyzeIncompatibleDiffTable src tgt t n).percentageCompatible = 100 ∧
    (analyzeIncompatibleDiffTable src tgt t n).ceCompatibleRecords =
      (analyzeIncompatibleDiffTable src tgt t n).totalRecords ∧
    (analyzeIncompatibleDiffTable src tgt t n).totalRecords = n ∧
    (analyzeIncompatibleDiffTable src tgt t n).eeOnlyRecords = 0 := by
  have hms2 : t ∉ src.metaFaulty := by simpa using hms
  have hmt2 : t ∉ tgt.metaFaulty := by simpa using hmt
  have hokS : getTableColumnsE src t = .ok (src.columnsOf t) := by
    simp [getTableColumnsE, hms2]
  have hokT : getTableColumnsE tgt t = .ok (tgt.columnsOf t) := by
    simp [getTableColumnsE, hmt2]
  have hmiss : getMissingColumnsInTargetE src tgt t = .ok (missingColumnsPure src tgt t) := by
    unfold getMissingColumnsInTargetE
    rw [hokS]
    simp only [bind, Except.bind]
    rw [hokT]
    simp [pure, Except.pure, missingColumnsPure]
  obtain ⟨nn, hnn, hnnspec⟩ := getNonNullColumnsE_spec src t hms hds
  have hfilter : (missingColumnsPure src tgt t).filter (fun c => nn.contains c) = [] := by
    rw [List.filter_eq_nil_iff]
    intro c hc
    intro hcontains
    have hcmem : c ∈ nn := by simpa using hcontains
    have hfalse := hnnspec c hcmem
    rw [hnull c hc] at hfalse
    exact Bool.noConfusion hfalse
  unfold analyzeIncompatibleDiffTable
  rw [hmiss]
  simp only [bind, Except.bind]
  rw [hnn]
  simp only [bind, Except.bind]
  rw [hfilter]
  simp [pure, Except.pure]

/-- Witness for `analyzeIncompatibleDiffTable_all_null`: `promo_code` is
missing from the target and entirely null in the source, and the analyzer
reports 100 % compatibility. -/
theorem analyzeIncompatibleDiffTable_all_null_witness :
    (analyzeIncompatibleDiffTable srcC5 tgtC5 "orders" 2).percentageCompatible = 100 ∧
    (analyzeIncompatibleDiffTable srcC5 tgtC5 "orders" 2).ceCompatibleRecords =
      (analyzeIncompatibleDiffTable srcC5 tgtC5 "orders" 2).totalRecords ∧
    (analyzeIncompatibleDiffTable srcC5 tgtC5 "orders" 2).totalRecords = 2 ∧
    (analyzeIncompatibleDiffTable srcC5 tgtC5 "orders" 2).eeOnlyRecords = 0 :=
  analyzeIncompatibleDiffTable_all_null srcC5 tgtC5 "orders" 2
    (by decide) (by decide) (by decide) (by decide)

theorem planStateWF_init : PlanStateWF ([], 1) :=
  ⟨rfl, by simp, by simp⟩

theorem planStateWF_addStep (st : List MigrationStep × Nat) (n q : String)
    (h : PlanStateWF st) : PlanStateWF (addStep st n q) := by
  obtain ⟨h1, h2, h3⟩ := h
  refine ⟨?_, ?_, ?_⟩
  · simp [addStep, h1]
  · intro i s hs
    simp only [addStep] at hs
    rcases Nat.lt_trichotomy i st.1.length with hlt | heq | hgt
    · rw [List.getElem?_append_left hlt] at hs
      exact h2 i s hs
    · subst heq
      rw [List.getElem?_concat_length] at hs
      obtain rfl := Option.some.inj hs
      simpa using h1
    · rw [List.getElem?_eq_none (by simp; omega)] at hs
      exact Option.noConfusion hs
  · intro s hs
    simp only [addStep, List.mem_append, List.mem_singleton] at hs
    rcases hs with hs | rfl
    · exact h3 s hs
    · exact ⟨rfl, rfl⟩

theorem planStateWF_addStepIf (c : Bool) (st : List MigrationStep × Nat)
    (n q : String) (h : PlanStateWF st) : PlanStateWF (addStepIf c st n q) := by
  unfold addStepIf
  split
  · exact planStateWF_addStep st n q h
  · exact h

theorem planStateWF_foldl {α : Type} (f : (List MigrationStep × Nat) → α → List MigrationStep × Nat)
    (hf : ∀ st x, PlanStateWF st → PlanStateWF (f st x)) :
    ∀ (l : List α) (st : List MigrationStep × Nat),
      PlanStateWF st → PlanStateWF (l.foldl f st) := by
  intro l
  induction l with
  | nil => intro st h; exact h
  | cons x rest ih => intro st h; exact ih (f st x) (hf st x h)

theorem fkStepFun_wf (a : AnalysisResult) :
    ∀ (st : List MigrationStep × Nat) (fk : FKDep),
      PlanStateWF st → PlanStateWF (fkStepFun a st fk) := by
  intro st fk h
  unfold fkStepFun
  split
  · exact planStateWF_addStep _ _ _ h
  · exact h

theorem tableStepFun_wf :
    ∀ (st : List MigrationStep × Nat) (t : String),
      PlanStateWF st → PlanStateWF (tableStepFun st t) :=
  fun st _ h => planStateWF_addStep st _ _ h

theorem planFixedPhases_wf (a : AnalysisResult) : PlanStateWF (planFixedPhases a) := by
  simp only [planFixedPhases]
  apply planStateWF_addStep
  apply planStateWF_addStepIf
  apply planStateWF_addStep
  apply planStateWF_addStepIf
  apply planStateWF_addStepIf
  apply planStateWF_addStepIf
  apply planStateWF_addStepIf
  exact planStateWF_init

theorem planFKPhase_wf (a : AnalysisResult) : PlanStateWF (planFKPhase a) :=
  planStateWF_foldl (fkStepFun a) (fkStepFun_wf a) a.foreign_key_dependencies
    (planFixedPhases a) (planFixedPhases_wf a)

theorem planTablePhase_wf (a : AnalysisResult) : PlanStateWF (planTablePhase a) :=
  planStateWF_foldl tableStepFun tableStepFun_wf (eeTableNames a)
    (planFKPhase a) (planFKPhase_wf a)

theorem planAll_wf (a : AnalysisResult) : PlanStateWF (planAll a) := by
  simp only [planAll]
  apply planStateWF_addStep
  apply planStateWF_addStepIf
  apply planStateWF_addStep
  exact planTablePhase_wf a

theorem generateMigrationSteps_numbered (a : AnalysisResult) :
    ∀ (i : Nat) (s : MigrationStep),
      (generateMigrationSteps a)[i]? = some s → s.step_number = i + 1 :=
  (planAll_wf a).2.1

theorem generateMigrationSteps_unset (a : AnalysisResult) :
    ∀ s ∈ generateMigrationSteps a,
      s.rows_affected = none ∧ s.execution_time_ms = none :=
  (planAll_wf a).2.2

/-- C4 (amended): in dry-run mode `executeMigration` sends no statement to
the staging connection, leaves the staging database untouched, reports
success, and returns the planned steps as-is — with `rows_affected` and
`execution_time_ms` left unset (`none`) on every step, not set to zero. -/
theorem executeMigration_dryRun (DB : Type) (jobId : Nat) (env : ExecEnv DB)
    (db : DB) (a : AnalysisResult) :
    (executeMigration jobId env db a true).sent = [] ∧
    (executeMigration jobId env db a true).finalDB = db ∧
    (executeMigration jobId env db a true).result.success = true ∧
    (executeMigration jobId env db a true).result.steps = generateMigrationSteps a ∧
    ∀ s ∈ (executeMigration jobId env db a true).result.steps,
      s.rows_affected = none ∧ s.execution_time_ms = none := by
  refine ⟨rfl, rfl, rfl, rfl, ?_⟩
  exact generateMigrationSteps_unset a

/-- Counterexample to C4 as stated: at a concrete dry run the returned steps
do not have `rows_affected = 0` and `execution_time_ms = 0`; the fields are
absent (`none`). -/
theorem executeMigration_dryRun_zero_counterexample :
    ¬ (∀ s ∈ (executeMigration 1 execEnvFail (0 : Nat) aEmpty true).result.steps,
        s.rows_affected = some 0 ∧ s.execution_time_ms = some 0) := by decide

/-- Witness for `executeMigration_dryRun` at a concrete dry run. -/
theorem executeMigration_dryRun_witness :
    (executeMigration 1 execEnvFail (0 : Nat) aEmpty true).sent = [] ∧
    (executeMigration 1 execEnvFail (0 : Nat) aEmpty true).finalDB = 0 :=
  ⟨(executeMigration_dryRun Nat 1 execEnvFail 0 aEmpty).1,
   (executeMigration_dryRun Nat 1 execEnvFail 0 aEmpty).2.1⟩

theorem runSteps_failed_take {DB : Type} (jobId : Nat) (env : ExecEnv DB) :
    ∀ (l : List MigrationStep) (db : DB) (k : Nat) (e : String)
      (done : List MigrationStep) (sent : List String) (log : List LogEntry),
      runSteps jobId env db l = .failed k e done sent log →
      ∃ (m : Nat) (s : MigrationStep), l[m]? = some s ∧ k = s.step_number ∧
        sent = (l.take (m + 1)).map MigrationStep.sql_executed := by
  intro l
  induction l with
  | nil =>
    intro db k e done sent log h
    simp [runSteps] at h
  | cons s rest ih =>
    intro db k e done sent log h
    simp only [runSteps] at h
    split at h
    next e0 heq =>
      simp only [RunOutcome.failed.injEq] at h
      obtain ⟨hk, he, hdone, hsent, hlog⟩ := h
      refine ⟨0, s, by simp, hk.symm, ?_⟩
      rw [← hsent]
      simp
    next db2 rows heq =>
      split at h
      next txdb done2 sent2 log2 heq2 => simp at h
      next k2 e2 done2 sent2 log2 heq2 =>
        simp only [RunOutcome.failed.injEq] at h
        obtain ⟨hk, he, hdone, hsent, hlog⟩ := h
        obtain ⟨m, s0, hm, hk0, hsent0⟩ := ih db2 k2 e2 done2 sent2 log2 heq2
        refine ⟨m + 1, s0, by simpa using hm, ?_, ?_⟩
        · rw [← hk]
          exact hk0
        · rw [← hsent, hsent0]
          simp

/-- C3: in live mode, when the step numbered `k` of the generated plan fails,
the transaction is rolled back so the staging database is left exactly as it
was before the run, the result reports `success = false` with the failing
step's error recorded, and the statements sent to the staging connection are
precisely `BEGIN`, the SQL of steps `1..k`, and `ROLLBACK` — steps `k+1..n`
are never sent. -/
theorem executeMigration_rollback_on_failure (DB : Type) (jobId : Nat)
    (env : ExecEnv DB) (db : DB) (a : AnalysisResult) (k : Nat) (e : String)
    (h : (runSteps jobId env db (generateMigrationSteps a)).failedNum = some (k, e)) :
    (executeMigration jobId env db a false).finalDB = db ∧
    (executeMigration jobId env db a false).result.success = false ∧
    ("Step " ++ toString k ++ " failed: " ++ e) ∈
      (executeMigration jobId env db a false).result.errors ∧
    (executeMigration jobId env db a false).sent =
      "BEGIN" :: ((generateMigrationSteps a).take k).map MigrationStep.sql_executed
        ++ ["ROLLBACK"] := by
  cases hrun : runSteps jobId env db (generateMigrationSteps a) with
  | ok txdb done sent log =>
    rw [hrun] at h
    exact absurd h (by simp [RunOutcome.failedNum])
  | failed k2 e2 done sent log =>
    rw [hrun] at h
    simp only [RunOutcome.failedNum, Option.some.injEq, Prod.mk.injEq] at h
    obtain ⟨rfl, rfl⟩ := h
    obtain ⟨m, s, hm, hk, hsent⟩ :=
      runSteps_failed_take jobId env (generateMigrationSteps a) db k2 e2 done sent log hrun
    have hnum := generateMigrationSteps_numbered a m s hm
    have hkm : k2 = m + 1 := hk.trans hnum
    simp only [executeMigration]
    rw [hrun]
    refine ⟨rfl, rfl, by simp, ?_⟩
    show "BEGIN" :: sent ++ ["ROLLBACK"] = _
    rw [hsent, hkm]

/-- Witness for `executeMigration_rollback_on_failure`: with a staging
environment that rejects every statement, the first planned step fails, the
state is unchanged and the error is recorded. -/
theorem executeMigration_rollback_on_failure_witness :
    (executeMigration 1 execEnvFail (0 : Nat) aEmpty false).finalDB = 0 ∧
    (executeMigration 1 execEnvFail (0 : Nat) aEmpty false).result.success = false ∧
    "Step 1 failed: boom" ∈
      (executeMigration 1 execEnvFail (0 : Nat) aEmpty false).result.errors := by
  have h := executeMigration_rollback_on_failure Nat 1 execEnvFail 0 aEmpty 1 "boom"
    (by decide)
  refine ⟨h.1, h.2.1, ?_⟩
  have hs : ("Step " ++ toString (1 : Nat) ++ " failed: " ++ "boom") =
      "Step 1 failed: boom" := by decide
  rw [← hs]
  exact h.2.2.1

theorem checkSchemaCompatibility_ok_spec (src tgt : Database) (t : String)
    (c : SchemaCompatibility) (h : checkSchemaCompatibility src tgt t = .ok c) :
    c.compatible = (c.missingColumns.length == 0) := by
  unfold checkSchemaCompatibility at h
  cases h1 : getNonNullColumnsE src t with
  | error e => rw [h1] at h; simp [bind, Except.bind] at h
  | ok nn =>
    rw [h1] at h
    simp only [bind, Except.bind] at h
    cases h2 : getTableColumnsE src t with
    | error e => rw [h2] at h; simp at h
    | ok cols =>
      rw [h2] at h
      simp only [] at h
      cases h3 : getTableColumnsE tgt t with
      | error e => rw [h3] at h; simp at h
      | ok tcols =>
        rw [h3] at h
        simp only [pure, Except.pure, Except.ok.injEq] at h
        subst h
        rfl

theorem classifyTable_ok_spec (src tgt : Database) (t : String)
    (d : TableComparisonDetail) (h : classifyTable src tgt t = .ok (some d)) :
    (d.category = .identical_records ↔
      d.targetRecordCount = some d.sourceRecordCount) ∧
    (d.category = .incompatible_diff ↔
      ∃ ms, d.missingColumns = some ms ∧ ms ≠ []) := by
  unfold classifyTable at h
  by_cases h0 : getRecordCount src t = 0
  · rw [if_pos h0] at h
    simp [pure, Except.pure] at h
  · rw [if_neg h0] at h
    cases h1 : tableExistsE tgt t with
    | error e => rw [h1] at h; simp [bind, Except.bind, pure, Except.pure] at h
    | ok b =>
      rw [h1] at h
      simp only [bind, Except.bind] at h
      by_cases hb : b = false
      · rw [if_pos hb] at h
        simp only [pure, Except.pure, Except.ok.injEq, Option.some.injEq] at h
        subst h
        exact ⟨by simp, by simp⟩
      · rw [if_neg hb] at h
        by_cases hc : getRecordCount src t = getRecordCount tgt t
        · rw [if_pos hc] at h
          simp only [pure, Except.pure, Except.ok.injEq, Option.some.injEq] at h
          subst h
          refine ⟨by simp [hc], by simp⟩
        · rw [if_neg hc] at h
          cases h2 : checkSchemaCompatibility src tgt t with
          | error e => rw [h2] at h; simp [bind, Except.bind, pure, Except.pure] at h
          | ok compat =>
            rw [h2] at h
            simp only [bind, Except.bind] at h
            have hcompat := checkSchemaCompatibility_ok_spec src tgt t compat h2
            by_cases hcb : compat.compatible = true
            · rw [if_pos hcb] at h
              simp only [pure, Except.pure, Except.ok.injEq, Option.some.injEq] at h
              subst h
              constructor
              · refine iff_of_false (by simp) ?_
                simp only [Option.some.injEq]
                exact fun hEq => hc hEq.symm
              · refine iff_of_false (by simp) ?_
                rintro ⟨ms, hms, hne⟩
                simp only [Option.some.injEq] at hms
                exact hne hms.symm
            · rw [if_neg hcb] at h
              simp only [pure, Except.pure, Except.ok.injEq, Option.some.injEq] at h
              subst h
              have hne : compat.missingColumns ≠ [] := by
                intro hnil
                apply hcb
                rw [hcompat, hnil]
                rfl
              constructor
              · refine iff_of_false (by simp) ?_
                simp only [Option.some.injEq]
                exact fun hEq => hc hEq.symm
              · exact iff_of_true rfl ⟨compat.missingColumns, rfl, hne⟩

theorem mem_compareAux_details (src tgt : Database) :
    ∀ (l : List Table) (d : TableComparisonDetail),
      d ∈ (compareAux src tgt l).1.tableDetails →
      ∃ t, classifyTable src tgt t = .ok (some d) := by
  intro l
  induction l with
  | nil =>
    intro d hd
    simp [compareAux, emptyComparisonResult] at hd
  | cons tb rest ih =>
    intro d hd
    rcases hP : compareAux src tgt rest with ⟨r, logs⟩
    rw [hP] at ih
    simp only [compareAux, hP] at hd
    cases hc : classifyTable src tgt tb.name with
    | ok od =>
      cases od with
      | none =>
        rw [hc] at hd
        exact ih d hd
      | some d0 =>
        rw [hc] at hd
        simp only [addDetail, List.mem_cons] at hd
        rcases hd with rfl | hd
        · exact ⟨tb.name, hc⟩
        · exact ih d hd
    | error e =>
      rw [hc] at hd
      exact ih d hd

/-- C1 (amended): the comparator assigns `identical_records` exactly when the
recorded target row count equals the source row count — no field-level row
comparison is performed before declaring `identical_records`. -/
theorem comparator_identical_iff_counts (src tgt : Database)
    (d : TableComparisonDetail)
    (hd : d ∈ (compareTablesBetweenDatabases src tgt).1.tableDetails) :
    d.category = .identical_records ↔
      d.targetRecordCount = some d.sourceRecordCount := by
  obtain ⟨t, ht⟩ := mem_compareAux_details src tgt src.tables d hd
  exact (classifyTable_ok_spec src tgt t d ht).1

/-- Counterexample to C1 as stated: a source and target whose table `t` holds
one row each with different values in column `v` is still classified
`identical_records` — equal row counts alone suffice, no field-level check
is run. -/
theorem comparator_identical_counterexample :
    (compareTablesBetweenDatabases srcC1 tgtC1).1.tableDetails =
      [{ tableName := "t", category := .identical_records, sourceRecordCount := 1,
         targetRecordCount := some 1 }] ∧
    (findTable srcC1 "t").map Table.rows ≠ (findTable tgtC1 "t").map Table.rows := by
  decide

/-- Witness for `comparator_identical_iff_counts` at the concrete detail the
comparator produces for `srcC1`/`tgtC1`. -/
theorem comparator_identical_iff_counts_witness :
    dC1.category = TableCategory.identical_records ↔
      dC1.targetRecordCount = some dC1.sourceRecordCount :=
  comparator_identical_iff_counts srcC1 tgtC1 dC1 (by decide)

/-- C2 (amended): a produced classification is `incompatible_diff` exactly
when its recorded missing-column list is present and non-empty (so
`incompatible_diff` implies non-empty `missing_columns`, and an empty list is
never `incompatible_diff`); moreover `incompatible_diff` additionally
requires that the row counts differ — a table whose populated columns are
missing from the target is still classified `identical_records` whenever the
row counts happen to be equal, because the comparator short-circuits on
count equality before any schema check. -/
theorem comparator_incompatible_iff_recorded (src tgt : Database)
    (d : TableComparisonDetail)
    (hd : d ∈ (compareTablesBetweenDatabases src tgt).1.tableDetails) :
    (d.category = .incompatible_diff ↔
      ∃ ms, d.missingColumns = some ms ∧ ms ≠ []) ∧
    (d.category = .incompatible_diff →
      d.targetRecordCount ≠ some d.sourceRecordCount) := by
  obtain ⟨t, ht⟩ := mem_compareAux_details src tgt src.tables d hd
  have spec := classifyTable_ok_spec src tgt t d ht
  refine ⟨spec.2, fun hcat heq => ?_⟩
  have hident : d.category = .identical_records := spec.1.mpr heq
  rw [hcat] at hident
  exact TableCategory.noConfusion hident

/-- Counterexample to C2 as stated: in `srcC2`/`tgtC2` the populated source
column `promo` of table `t` is absent from the target, yet the comparator
classifies `t` as `identical_records` (row counts are equal), not
`incompatible_diff`. -/
theorem comparator_incompatible_counterexample :
    (∃ d ∈ (compareTablesBetweenDatabases srcC2 tgtC2).1.tableDetails,
      d.tableName = "t" ∧ d.category = .identical_records) ∧
    getNonNullColumnsE srcC2 "t" = .ok ["id", "promo"] ∧
    tgtC2.columnsOf "t" = ["id"] := by
  decide

/-- Witness for `comparator_incompatible_iff_recorded` at the concrete
`incompatible_diff` detail produced for table `u` of `srcC2`/`tgtC2`. -/
theorem comparator_incompatible_iff_recorded_witness :
    dC2u.category = TableCategory.incompatible_diff ↔
      ∃ ms, dC2u.missingColumns = some ms ∧ ms ≠ [] :=
  (comparator_incompatible_iff_recorded srcC2 tgtC2 dC2u (by decide)).1

theorem compareAux_error_mid (src tgt : Database) (tb : Table) (e : String)
    (he : classifyTable src tgt tb.name = .error e) :
    ∀ (pre suf : List Table),
      (compareAux src tgt (pre ++ tb :: suf)).1.tableDetails =
        (compareAux src tgt (pre ++ suf)).1.tableDetails ∧
      (compareAux src tgt (pre ++ tb :: suf)).1.tablesWithData =
        (compareAux src tgt (pre ++ suf)).1.tablesWithData + 1 ∧
      (compareAux src tgt (pre ++ tb :: suf)).1.tablesMissingInTarget =
        (compareAux src tgt (pre ++ suf)).1.tablesMissingInTarget ∧
      (compareAux src tgt (pre ++ tb :: suf)).1.tablesWithIdenticalRecords =
        (compareAux src tgt (pre ++ suf)).1.tablesWithIdenticalRecords ∧
      (compareAux src tgt (pre ++ tb :: suf)).1.tablesWithCompatibleDiff =
        (compareAux src tgt (pre ++ suf)).1.tablesWithCompatibleDiff ∧
      (compareAux src tgt (pre ++ tb :: suf)).1.tablesWithIncompatibleDiff =
        (compareAux src tgt (pre ++ suf)).1.tablesWithIncompatibleDiff ∧
      ("Error processing table " ++ tb.name ++ ": " ++ e) ∈
        (compareAux src tgt (pre ++ tb :: suf)).2 := by
  intro pre
  induction pre with
  | nil =>
    intro suf
    simp only [List.nil_append]
    rcases hP : compareAux src tgt suf with ⟨r, logs⟩
    simp only [compareAux, hP, he]
    exact ⟨rfl, rfl, rfl, rfl, rfl, rfl, List.mem_cons_self _ _⟩
  | cons p pre ih =>
    intro suf
    have ihs := ih suf
    simp only [List.cons_append]
    rcases h1 : compareAux src tgt (pre ++ tb :: suf) with ⟨r1, logs1⟩
    rcases h2 : compareAux src tgt (pre ++ suf) with ⟨r2, logs2⟩
    rw [h1, h2] at ihs
    obtain ⟨hdet, htwd, hmis, hid, hcomp, hinc, hmem⟩ := ihs
    dsimp only at hdet htwd hmis hid hcomp hinc hmem
    simp only [compareAux, h1, h2]
    cases hc : classifyTable src tgt p.name with
    | ok od =>
      cases od with
      | none => exact ⟨hdet, htwd, hmis, hid, hcomp, hinc, hmem⟩
      | some d =>
        refine ⟨?_, ?_, ?_, ?_, ?_, ?_, hmem⟩ <;>
          simp [addDetail, hdet, htwd, hmis, hid, hcomp, hinc]
    | error e2 =>
      refine ⟨hdet, ?_, hmis, hid, hcomp, hinc, List.mem_cons_of_mem _ hmem⟩
      simp [addErrored, htwd]

/-- C9 (amended): a probe failure on one table does not abort the comparator
pass — every other table is still processed and classified exactly as it
would have been without the failing table; the failing table contributes no
entry to `tableDetails` and to none of the per-category counters, but it is
still counted in `tablesWithData` (its source count was read before the
throw), and its error is only written to the console log: the returned
`TableComparisonResult` has no error field at all. -/
theorem comparator_probe_error_isolated (src tgt : Database)
    (pre suf : List Table) (tb : Table) (e : String)
    (hsrc : src.tables = pre ++ tb :: suf)
    (he : classifyTable src tgt tb.name = .error e) :
    (compareTablesBetweenDatabases src tgt).1.tableDetails =
      (compareAux src tgt (pre ++ suf)).1.tableDetails ∧
    (compareTablesBetweenDatabases src tgt).1.tablesWithData =
      (compareAux src tgt (pre ++ suf)).1.tablesWithData + 1 ∧
    (compareTablesBetweenDatabases src tgt).1.tablesMissingInTarget =
      (compareAux src tgt (pre ++ suf)).1.tablesMissingInTarget ∧
    (compareTablesBetweenDatabases src tgt).1.tablesWithIdenticalRecords =
      (compareAux src tgt (pre ++ suf)).1.tablesWithIdenticalRecords ∧
    (compareTablesBetweenDatabases src tgt).1.tablesWithCompatibleDiff =
      (compareAux src tgt (pre ++ suf)).1.tablesWithCompatibleDiff ∧
    (compareTablesBetweenDatabases src tgt).1.tablesWithIncompatibleDiff =
      (compareAux src tgt (pre ++ suf)).1.tablesWithIncompatibleDiff ∧
    ("Error processing table " ++ tb.name ++ ": " ++ e) ∈
      (compareTablesBetweenDatabases src tgt).2 := by
  rw [compareTablesBetweenDatabases, hsrc]
  exact compareAux_error_mid src tgt tb e he pre suf

/-- Counterexample to C9 as stated: with the target-side probe of table `a`
failing, the pass continues and table `b` is classified, but the failing
table is NOT omitted from the aggregate counts — `tablesWithData` is 2, and
the error lives only in the console log, not in the returned result. -/
theorem comparator_probe_error_counterexample :
    (compareTablesBetweenDatabases srcC9 tgtC9).1.tablesWithData = 2 ∧
    (∀ d ∈ (compareTablesBetweenDatabases srcC9 tgtC9).1.tableDetails,
      d.tableName = "b") ∧
    (compareTablesBetweenDatabases srcC9 tgtC9).2 =
      ["Error processing table a: exists query failed for a"] := by
  decide

/-- Witness for `comparator_probe_error_isolated` at the concrete failing
pass over `srcC9`/`tgtC9`. -/
theorem comparator_probe_error_isolated_witness :
    (compareTablesBetweenDatabases srcC9 tgtC9).1.tableDetails =
      (compareAux srcC9 tgtC9 ([] ++ [tblB])).1.tableDetails ∧
    (compareTablesBetweenDatabases srcC9 tgtC9).1.tablesWithData =
      (compareAux srcC9 tgtC9 ([] ++ [tblB])).1.tablesWithData + 1 := by
  have h := comparator_probe_error_isolated srcC9 tgtC9 [] [tblB] tblA
    "exists query failed for a" (by rfl) (by decide)
  exact ⟨h.1, h.2.1⟩

theorem append_ne_append_of_data (p q x y : String) (i : Nat)
    (hp : i < p.data.length) (hq : i < q.data.length)
    (hne : p.data[i]? ≠ q.data[i]?) : p ++ x ≠ q ++ y := by
  intro h
  apply hne
  have hd : p.data ++ x.data = q.data ++ y.data := by
    rw [← String.data_append, ← String.data_append, h]
  calc p.data[i]? = (p.data ++ x.data)[i]? := (List.getElem?_append_left hp).symm
    _ = (q.data ++ y.data)[i]? := by rw [hd]
    _ = q.data[i]? := List.getElem?_append_left hq

theorem fixed_ne_append (f q y : String) (i : Nat)
    (hq : i < q.data.length) (hne : f.data[i]? ≠ q.data[i]?) : f ≠ q ++ y := by
  intro h
  apply hne
  have hd : f.data = q.data ++ y.data := by rw [h, String.data_append]
  rw [hd]
  exact List.getElem?_append_left hq

theorem dropTable_ne_dropFK (t c : String) :
    ("Drop table " ++ t) ≠ ("Drop FK constraint " ++ c) :=
  append_ne_append_of_data _ _ _ _ 5 (by decide) (by decide) (by decide)

theorem fixedStepName_ne_dropFK (n c : String) (hf : fixedStepName n) :
    n ≠ "Drop FK constraint " ++ c := by
  rcases hf with rfl | rfl | rfl | rfl | rfl | rfl | rfl | rfl | rfl | rfl <;>
    exact fixed_ne_append _ _ _ 1 (by decide) (by decide)

theorem fixedStepName_ne_dropTable (n t : String) (hf : fixedStepName n) :
    n ≠ "Drop table " ++ t := by
  rcases hf with rfl | rfl | rfl | rfl | rfl | rfl | rfl | rfl | rfl | rfl <;>
    exact fixed_ne_append _ _ _ 1 (by decide) (by decide)

theorem namesOK_addStep (P : String → Prop) (st : List MigrationStep × Nat)
    (n q : String) (h : NamesOK P st) (hn : P n) : NamesOK P (addStep st n q) := by
  intro s hs
  simp only [addStep, List.mem_append, List.mem_singleton] at hs
  rcases hs with hs | rfl
  · exact h s hs
  · exact hn

theorem namesOK_addStepIf (P : String → Prop) (c : Bool)
    (st : List MigrationStep × Nat) (n q : String) (h : NamesOK P st) (hn : P n) :
    NamesOK P (addStepIf c st n q) := by
  unfold addStepIf
  split
  · exact namesOK_addStep P st n q h hn
  · exact h

theorem planFixedPhases_names (a : AnalysisResult) :
    NamesOK fixedStepName (planFixedPhases a) := by
  simp only [planFixedPhases]
  apply namesOK_addStep
  · apply namesOK_addStepIf
    · apply namesOK_addStep
      · apply namesOK_addStepIf
        · apply namesOK_addStepIf
          · apply namesOK_addStepIf
            · apply namesOK_addStepIf
              · intro s hs
                simp at hs
              · simp [fixedStepName]
            · simp [fixedStepName]
          · simp [fixedStepName]
        · simp [fixedStepName]
      · simp [fixedStepName]
    · simp [fixedStepName]
  · simp [fixedStepName]

theorem exists_tail_addStep (base : List MigrationStep)
    (st : List MigrationStep × Nat) (n q : String)
    (h : ∃ L, st.1 = base ++ L ∧ ∀ s ∈ L, fixedStepName s.step_name)
    (hn : fixedStepName n) :
    ∃ L, (addStep st n q).1 = base ++ L ∧ ∀ s ∈ L, fixedStepName s.step_name := by
  obtain ⟨L, hL, hns⟩ := h
  refine ⟨L ++ [{ step_number := st.2, step_name := n, sql_executed := q }], ?_, ?_⟩
  · simp [addStep, hL]
  · intro s hs
    rcases List.mem_append.mp hs with hs | hs
    · exact hns s hs
    · rw [List.mem_singleton] at hs
      subst hs
      exact hn

theorem exists_tail_addStepIf (base : List MigrationStep) (c : Bool)
    (st : List MigrationStep × Nat) (n q : String)
    (h : ∃ L, st.1 = base ++ L ∧ ∀ s ∈ L, fixedStepName s.step_name)
    (hn : fixedStepName n) :
    ∃ L, (addStepIf c st n q).1 = base ++ L ∧ ∀ s ∈ L, fixedStepName s.step_name := by
  unfold addStepIf
  split
  · exact exists_tail_addStep base st n q h hn
  · exact h

theorem planAll_decomp (a : AnalysisResult) :
    ∃ Ltail, (planAll a).1 = (planTablePhase a).1 ++ Ltail ∧
      ∀ s ∈ Ltail, fixedStepName s.step_name := by
  simp only [planAll]
  apply exists_tail_addStep
  · apply exists_tail_addStepIf
    · apply exists_tail_addStep
      · exact ⟨[], by simp, by simp⟩
      · simp [fixedStepName]
    · simp [fixedStepName]
  · simp [fixedStepName]

theorem fk_fold_decomp (a : AnalysisResult) :
    ∀ (l : List FKDep) (st : List MigrationStep × Nat),
      ∃ L, (l.foldl (fkStepFun a) st).1 = st.1 ++ L ∧
        (∀ s ∈ L, ∃ fk0 : FKDep,
          s.step_name = "Drop FK constraint " ++ fk0.constraint_name) ∧
        (∀ fk ∈ l, (eeTableNames a).contains fk.foreign_table_name = true →
          ∃ s ∈ L, s.step_name = "Drop FK constraint " ++ fk.constraint_name) := by
  intro l
  induction l with
  | nil => intro st; exact ⟨[], by simp, by simp, by simp⟩
  | cons fk rest ih =>
    intro st
    simp only [List.foldl_cons]
    obtain ⟨L, hL, hnames, hcover⟩ := ih (fkStepFun a st fk)
    cases hcond : (eeTableNames a).contains fk.foreign_table_name with
    | true =>
      have hcond2 : fk.foreign_table_name ∈ eeTableNames a := by simpa using hcond
      have hstep : fkStepFun a st fk =
          addStep st ("Drop FK constraint " ++ fk.constraint_name)
            ("ALTER TABLE " ++ fk.table_name ++ " DROP CONSTRAINT IF EXISTS "
              ++ fk.constraint_name ++ " CASCADE;") := by
        simp [fkStepFun, hcond2]
      rw [hstep] at hL
      refine ⟨{ step_number := st.2, step_name := "Drop FK constraint " ++ fk.constraint_name, sql_executed := "ALTER TABLE " ++ fk.table_name ++ " DROP CONSTRAINT IF EXISTS " ++ fk.constraint_name ++ " CASCADE;" } :: L, ?_, ?_, ?_⟩
      · rw [hstep, hL]
        simp [addStep]
      · intro s hs
        rcases List.mem_cons.mp hs with rfl | hs
        · exact ⟨fk, rfl⟩
        · exact hnames s hs
      · intro fk0 hfk0 hc0
        rcases List.mem_cons.mp hfk0 with rfl | hfk0
        · exact ⟨_, List.mem_cons_self _ _, rfl⟩
        · obtain ⟨s, hsL, hsn⟩ := hcover fk0 hfk0 hc0
          exact ⟨s, List.mem_cons_of_mem _ hsL, hsn⟩
    | false =>
      have hcond2 : fk.foreign_table_name ∉ eeTableNames a := by simpa using hcond
      have hstep : fkStepFun a st fk = st := by simp [fkStepFun, hcond2]
      rw [hstep] at hL
      refine ⟨L, by rw [hstep]; exact hL, hnames, ?_⟩
      intro fk0 hfk0 hc0
      rcases List.mem_cons.mp hfk0 with rfl | hfk0
      · rw [hcond] at hc0
        exact absurd hc0 Bool.false_ne_true
      · exact hcover fk0 hfk0 hc0

theorem table_fold_decomp :
    ∀ (l : List String) (st : List MigrationStep × Nat),
      ∃ L, (l.foldl tableStepFun st).1 = st.1 ++ L ∧
        (∀ s ∈ L, ∃ t0 : String, s.step_name = "Drop table " ++ t0) ∧
        (∀ t ∈ l, ∃ s ∈ L, s.step_name = "Drop table " ++ t) := by
  intro l
  induction l with
  | nil => intro st; exact ⟨[], by simp, by simp, by simp⟩
  | cons t rest ih =>
    intro st
    simp only [List.foldl_cons]
    obtain ⟨L, hL, hnames, hcover⟩ := ih (tableStepFun st t)
    have hstep : tableStepFun st t =
        addStep st ("Drop table " ++ t) ("DROP TABLE IF EXISTS " ++ t ++ " CASCADE;") := rfl
    rw [hstep] at hL
    refine ⟨{ step_number := st.2, step_name := "Drop table " ++ t, sql_executed := "DROP TABLE IF EXISTS " ++ t ++ " CASCADE;" } :: L, ?_, ?_, ?_⟩
    · rw [hstep, hL]
      simp [addStep]
    · intro s hs
      rcases List.mem_cons.mp hs with rfl | hs
      · exact ⟨t, rfl⟩
      · exact hnames s hs
    · intro t0 ht0
      rcases List.mem_cons.mp ht0 with rfl | ht0
      · exact ⟨_, List.mem_cons_self _ _, rfl⟩
      · obtain ⟨s, hsL, hsn⟩ := hcover t0 ht0
        exact ⟨s, List.mem_cons_of_mem _ hsL, hsn⟩

theorem step_number_bounds (L A B C : List MigrationStep)
    (hnum : ∀ (i : Nat) (s : MigrationStep), L[i]? = some s → s.step_number = i + 1)
    (hL : L = A ++ (B ++ C)) (s : MigrationStep) (hs : s ∈ B) :
    A.length + 1 ≤ s.step_number ∧ s.step_number ≤ A.length + B.length := by
  obtain ⟨j, hj, hget⟩ := List.mem_iff_getElem.mp hs
  have hgj : L[A.length + j]? = some s := by
    rw [hL, List.getElem?_append_right (Nat.le_add_right _ _)]
    rw [Nat.add_sub_cancel_left]
    rw [List.getElem?_append_left hj]
    rw [List.getElem?_eq_getElem hj, hget]
  have := hnum (A.length + j) s hgj
  omega

/-- C7: in every generated plan, for every foreign-key constraint whose
referenced table is a detected EE (superset-only) table, the plan contains a
drop-constraint step for that constraint and a drop-table step for the
referenced table, and every such drop-constraint step carries a strictly
smaller step number than every drop-table step for the referenced table:
constraint drops always precede the corresponding table drops. -/
theorem plan_fk_drop_precedes_table_drop (a : AnalysisResult) (fk : FKDep)
    (hmem : fk ∈ a.foreign_key_dependencies)
    (href : (eeTableNames a).contains fk.foreign_table_name = true) :
    (∃ s ∈ generateMigrationSteps a,
      s.step_name = "Drop FK constraint " ++ fk.constraint_name) ∧
    (∃ s ∈ generateMigrationSteps a,
      s.step_name = "Drop table " ++ fk.foreign_table_name) ∧
    (∀ s t, s ∈ generateMigrationSteps a → t ∈ generateMigrationSteps a →
      s.step_name = "Drop FK constraint " ++ fk.constraint_name →
      t.step_name = "Drop table " ++ fk.foreign_table_name →
      s.step_number < t.step_number) := by
  obtain ⟨Lfk, hLfk0, hfknames, hfkcover⟩ :=
    fk_fold_decomp a a.foreign_key_dependencies (planFixedPhases a)
  obtain ⟨Ltb, hLtb0, htbnames, htbcover⟩ :=
    table_fold_decomp (eeTableNames a) (planFKPhase a)
  obtain ⟨Ltail, hLtail, htailnames⟩ := planAll_decomp a
  have h1 : (planFKPhase a).1 = (planFixedPhases a).1 ++ Lfk := hLfk0
  have h2 : (planTablePhase a).1 = (planFKPhase a).1 ++ Ltb := hLtb0
  have hfull : generateMigrationSteps a =
      (planFixedPhases a).1 ++ (Lfk ++ (Ltb ++ Ltail)) := by
    show (planAll a).1 = _
    rw [hLtail, h2, h1]
    simp [List.append_assoc]
  have hnum := generateMigrationSteps_numbered a
  obtain ⟨sC, hsCL, hsCname⟩ := hfkcover fk hmem href
  obtain ⟨sT, hsTL, hsTname⟩ := htbcover fk.foreign_table_name (by simpa using href)
  refine ⟨⟨sC, ?_, hsCname⟩, ⟨sT, ?_, hsTname⟩, ?_⟩
  · rw [hfull]
    exact List.mem_append_right _ (List.mem_append_left _ hsCL)
  · rw [hfull]
    exact List.mem_append_right _ (List.mem_append_right _ (List.mem_append_left _ hsTL))
  · intro s t hsmem htmem hsname htname
    have hsseg : s ∈ Lfk := by
      rw [hfull] at hsmem
      rcases List.mem_append.mp hsmem with hP | hrest
      · exact absurd hsname (fixedStepName_ne_dropFK _ _ (planFixedPhases_names a s hP))
      rcases List.mem_append.mp hrest with hFK | hrest2
      · exact hFK
      rcases List.mem_append.mp hrest2 with hTB | hTail
      · obtain ⟨t0, ht0⟩ := htbnames s hTB
        exact absurd (ht0.symm.trans hsname) (dropTable_ne_dropFK t0 fk.constraint_name)
      · exact absurd hsname (fixedStepName_ne_dropFK _ _ (htailnames s hTail))
    have htseg : t ∈ Ltb := by
      rw [hfull] at htmem
      rcases List.mem_append.mp htmem with hP | hrest
      · exact absurd htname (fixedStepName_ne_dropTable _ _ (planFixedPhases_names a t hP))
      rcases List.mem_append.mp hrest with hFK | hrest2
      · obtain ⟨fk0, hfk0⟩ := hfknames t hFK
        exact absurd (htname.symm.trans hfk0) (dropTable_ne_dropFK _ _)
      rcases List.mem_append.mp hrest2 with hTB | hTail
      · exact hTB
      · exact absurd htname (fixedStepName_ne_dropTable _ _ (htailnames t hTail))
    have hbs := step_number_bounds (generateMigrationSteps a)
      (planFixedPhases a).1 Lfk (Ltb ++ Ltail) hnum hfull s hsseg
    have hbt := step_number_bounds (generateMigrationSteps a)
      ((planFixedPhases a).1 ++ Lfk) Ltb Ltail hnum
      (by rw [hfull]; simp [List.append_assoc]) t htseg
    have hlen : ((planFixedPhases a).1 ++ Lfk).length =
        (planFixedPhases a).1.length + Lfk.length := List.length_append _ _
    omega

/-- Witness for `plan_fk_drop_precedes_table_drop` at the concrete analysis
`aC7` (EE table `a`, referenced by constraint `b_a_id_fkey` on `b`). -/
theorem plan_fk_drop_precedes_table_drop_witness :
    (∃ s ∈ generateMigrationSteps aC7,
      s.step_name = "Drop FK constraint " ++ "b_a_id_fkey") ∧
    (∃ s ∈ generateMigrationSteps aC7,
      s.step_name = "Drop table " ++ "a") := by
  have h := plan_fk_drop_precedes_table_drop aC7
    { table_name := "b", column_name := "a_id", foreign_table_name := "a",
      constraint_name := "b_a_id_fkey" }
    (by decide) (by decide)
  exact ⟨h.1, h.2.1⟩

theorem foldl_reads_accum {α : Type} (g : ExportState → α → ExportState)
    (r : α → SourceRead) (hg : ∀ (st : ExportState) (x : α), (g st x).reads = st.reads ++ [r x]) :
    ∀ (l : List α) (st : ExportState), (l.foldl g st).reads = st.reads ++ l.map r := by
  intro l
  induction l with
  | nil => intro st; simp
  | cons x rest ih =>
    intro st
    rw [List.foldl_cons, ih (g st x), hg st x]
    simp

theorem batch_fold_reads (tc : TableExportConfig) (cpId total : Nat) :
    ∀ (n : Nat) (st : ExportState),
      ((List.range n).foldl
        (fun st i =>
          applyCheckpointUpdate
            { st with reads := st.reads ++
              [SourceRead.batch tc.tableName BATCH_SIZE (BATCH_SIZE * i)] }
            cpId
            { records_exported := some (BATCH_SIZE * (i + 1)),
              total_records := some total })
        st).reads =
      st.reads ++ (List.range n).map
        (fun i => SourceRead.batch tc.tableName BATCH_SIZE (BATCH_SIZE * i)) :=
  fun n st =>
    foldl_reads_accum _ (fun i => SourceRead.batch tc.tableName BATCH_SIZE (BATCH_SIZE * i))
      (fun _ _ => rfl) (List.range n) st

theorem exportOneTable_reads (src : Database) (cpId : Nat) (tc : TableExportConfig)
    (st : ExportState) (runningTotal : Nat) (entries : List (String × List Row)) :
    ((exportOneTable src cpId (st, runningTotal, entries) tc).1).reads =
      st.reads ++ tableReads src tc := by
  simp only [exportOneTable]
  cases hf : findTable src tc.tableName with
  | none => simp [tableReads, hf]
  | some tb =>
    simp only [hf]
    rw [batch_fold_reads]
    simp [tableReads, hf]

theorem tables_fold_reads (src : Database) (cpId : Nat) :
    ∀ (tcs : List TableExportConfig) (st : ExportState) (tot : Nat)
      (entries : List (String × List Row)),
      ((tcs.foldl (exportOneTable src cpId) (st, tot, entries)).1).reads =
        st.reads ++ (tcs.map (tableReads src)).flatten := by
  intro tcs
  induction tcs with
  | nil => intro st tot entries; simp
  | cons tc rest ih =>
    intro st tot entries
    simp only [List.foldl_cons]
    rcases hE : exportOneTable src cpId (st, tot, entries) tc with ⟨st2, tot2, entries2⟩
    have h2 := exportOneTable_reads src cpId tc st tot entries
    rw [hE] at h2
    dsimp only at h2
    rw [ih st2 tot2 entries2, h2]
    simp

theorem initCheckpointStep_covered (jobId : Nat) (st : ExportState)
    (m : ExportModuleConfig)
    (h : st.checkpoints.any
      (fun c => c.job_id == jobId && c.module_name == m.moduleName) = true) :
    initCheckpointStep jobId st m = st := by
  simp [initCheckpointStep, h]

theorem init_foldl_covered (jobId : Nat) :
    ∀ (ms : List ExportModuleConfig) (st : ExportState),
      (∀ m ∈ ms, st.checkpoints.any
        (fun c => c.job_id == jobId && c.module_name == m.moduleName) = true) →
      ms.foldl (initCheckpointStep jobId) st = st := by
  intro ms
  induction ms with
  | nil => intro st _; rfl
  | cons m rest ih =>
    intro st h
    rw [List.foldl_cons, initCheckpointStep_covered jobId st m (h m (List.mem_cons_self _ _))]
    exact ih st (fun m0 hm0 => h m0 (List.mem_cons_of_mem _ hm0))

theorem exportModulesLoop_all_completed (jobId : Nat) (env : ExportEnv)
    (src : Database) (dir : String) :
    ∀ (cs : List ExportCheckpoint) (st : ExportState),
      (∀ c ∈ cs, c.status = .completed) →
      exportModulesLoop jobId env src dir st cs = .ok st := by
  intro cs
  induction cs with
  | nil => intro st _; rfl
  | cons c rest ih =>
    intro st h
    simp only [exportModulesLoop]
    rw [if_pos (h c (List.mem_cons_self _ _))]
    exact ih st (fun c0 hc0 => h c0 (List.mem_cons_of_mem _ hc0))

/-- C8: the export is idempotent on finished work.  (1) `exportModule` on a
module whose checkpoint is `completed` returns the state unchanged: no
source-database read, no file write, no checkpoint update.  (2) On a module
in any other state, `exportModule` re-executes the export from scratch: the
source reads it performs are exactly the full fresh per-table reads
(existence probe, count, batches from offset 0), regardless of any recorded
progress.  (3) `exportAllModules` on a job whose every catalog module has a
`completed` checkpoint performs nothing at all — zero additional reads. -/
theorem export_resume_idempotent :
    (∀ (jobId : Nat) (env : ExportEnv) (src : Database) (mc : ExportModuleConfig)
      (dir : String) (st : ExportState) (cp : ExportCheckpoint),
      st.checkpoints.find?
        (fun c => c.job_id == jobId && c.module_name == mc.moduleName) = some cp →
      cp.status = .completed →
      exportModule jobId env src mc dir st = .ok st) ∧
    (∀ (jobId : Nat) (env : ExportEnv) (src : Database) (mc : ExportModuleConfig)
      (dir : String) (st : ExportState) (cp : ExportCheckpoint),
      st.checkpoints.find?
        (fun c => c.job_id == jobId && c.module_name == mc.moduleName) = some cp →
      cp.status ≠ .completed →
      ∃ st2, exportModule jobId env src mc dir st = .ok st2 ∧
        st2.reads = st.reads ++ moduleReads src mc) ∧
    (∀ (jobId : Nat) (env : ExportEnv) (src : Database) (dir : Option String)
      (st : ExportState),
      (∀ m ∈ EXPORT_MODULES, ∃ c ∈ st.checkpoints,
        c.job_id = jobId ∧ c.module_name = m.moduleName) →
      (∀ c ∈ st.checkpoints, c.job_id = jobId → c.status = .completed) →
      exportAllModules jobId env src dir st = .ok st) := by
  refine ⟨?_, ?_, ?_⟩
  · intro jobId env src mc dir st cp hfind hst
    simp only [exportModule, hfind]
    rw [if_pos hst]
  · intro jobId env src mc dir st cp hfind hst
    simp only [exportModule, hfind]
    rw [if_neg hst]
    rcases hfold : mc.tables.foldl (exportOneTable src cp.id)
      (applyCheckpointUpdate st cp.id
        { status := some .in_progress, started_at := some (some env.now) }, 0, [])
      with ⟨stf, totf, entf⟩
    have hr := tables_fold_reads src cp.id mc.tables
      (applyCheckpointUpdate st cp.id
        { status := some .in_progress, started_at := some (some env.now) }) 0 []
    rw [hfold] at hr
    dsimp only at hr
    refine ⟨_, rfl, ?_⟩
    simp only [applyCheckpointUpdate]
    rw [hr]
    rfl
  · intro jobId env src dir st hcov hall
    unfold exportAllModules
    have hinit : initializeExportCheckpoints jobId st = st := by
      unfold initializeExportCheckpoints
      apply init_foldl_covered
      intro m hm
      obtain ⟨c, hc, hj, hn⟩ := hcov m hm
      exact List.any_eq_true.mpr ⟨c, hc, by simp [hj, hn]⟩
    rw [hinit]
    apply exportModulesLoop_all_completed
    intro c hc
    simp only [getExportCheckpoints, List.mem_filter] at hc
    exact hall c hc.1 (by simpa using hc.2)

/-- Witness for `export_resume_idempotent`: the completed `helpdesk`
checkpoint is skipped without touching anything, and a job whose every
module is `completed` exports nothing on re-run. -/
theorem export_resume_idempotent_witness :
    exportModule 1 exportEnvW srcEmpty mcEmptyHelpdesk "d" stC8 = .ok stC8 ∧
    exportAllModules 1 exportEnvW srcEmpty none stC8all = .ok stC8all :=
  ⟨export_resume_idempotent.1 1 exportEnvW srcEmpty mcEmptyHelpdesk "d" stC8 cpC8
      (by rfl) (by rfl),
   export_resume_idempotent.2.2 1 exportEnvW srcEmpty none stC8all
      (by decide) (by decide)⟩

end Migration
